import Mathlib

/-!
Shallow embedding of the disaster-response coordination server
(`backend/graph/situation_graph.py`, `backend/orchestrator/coordinator.py`,
`backend/orchestrator/simulation.py`).  Timestamps are modelled as natural
numbers and every operation that calls `datetime.utcnow()` in the source
takes the current time `now` as an explicit argument.  Python floats are
modelled as rationals, Python dicts as insertion-ordered association lists.
-/

namespace Spec2Proof

/-- Association list keyed by strings, modelling a Python dict
(insertion-ordered, unique keys). -/
abbrev AList (α : Type) := List (String × α)

/-- Models `d.get(k)` / `k in d` lookup on an association list. -/
def alookup {α : Type} (k : String) : AList α → Option α
  | [] => none
  | (k', v) :: rest => if k' = k then some v else alookup k rest

/-- In-place update of the entry at key `k` (dict item assignment when the
key is already present); entries with other keys are untouched. -/
def alistUpdate {α : Type} (k : String) (f : α → α) : AList α → AList α
  | [] => []
  | (k', v) :: rest => if k' = k then (k', f v) :: rest else (k', v) :: alistUpdate k f rest

/-- Models `del d[k]`: removes the (unique) entry at key `k`. -/
def aerase {α : Type} (k : String) : AList α → AList α
  | [] => []
  | (k', v) :: rest => if k' = k then rest else (k', v) :: aerase k rest

/-- Models `d[k] = v`: update in place when present, append otherwise. -/
def aset {α : Type} (k : String) (v : α) (l : AList α) : AList α :=
  if (alookup k l).isSome then alistUpdate k (fun _ => v) l else l ++ [(k, v)]

-- ===== enums (graph/schemas.py) =====
/-- Models `Urgency` enum. -/
inductive Urgency
  | critical
  | high
  | medium
  | low
deriving DecidableEq

/-- Incident `status` literal type. -/
inductive IStatus
  | active
  | responding
  | contained
  | resolvedSt
deriving DecidableEq

/-- Resource `status` literal type. -/
inductive RStatus
  | available
  | dispatched
  | on_scene
  | returning
  | offline
deriving DecidableEq

/-- Action `status` literal type. -/
inductive AStatus
  | pending
  | approved
  | rejected
  | executed
  | expired
deriving DecidableEq

/-- Models `Verdict` enum. -/
inductive Verdict
  | consistent
  | contradiction
  | uncertain
  | temporal_gap
deriving DecidableEq

/-- Alert `severity` literal type. -/
inductive Severity
  | low
  | medium
  | high
deriving DecidableEq

/-- Models `ActionType` enum. -/
inductive ActionType
  | accept
  | flag_for_human
  | request_verification
  | wait
deriving DecidableEq

-- ===== value objects =====
/-- Models `Location` value (lat/lng as rationals). -/
structure Location where
  lat : ℚ
  lng : ℚ
  sector : Option String := none
  name : Option String := none
  address : Option String := none
deriving DecidableEq

/-- One claim record accumulated for contradiction detection
(`source`, `source_type`, `claim`, `confidence`, `timestamp`). -/
structure Claim where
  source : String
  source_type : String
  claim : String
  confidence : ℚ
  timestamp : String
deriving DecidableEq

-- ===== graph nodes (graph/schemas.py) =====
/-- Models `IncidentNode` (the fields the verified operations read or write). -/
structure IncidentNode where
  id : String
  incident_type : String
  location : Location
  urgency : Urgency
  confidence : ℚ
  decay_rate : ℚ := 1 / 100
  status : IStatus := .active
  assigned_resources : List String := []
  updated_at : Nat
deriving DecidableEq

/-- Models `ResourceNode`. -/
structure ResourceNode where
  id : String
  resource_type : String
  unit_id : String
  current_location : Location
  destination : Option Location := none
  status : RStatus
  assigned_incident : Option String := none
  eta_minutes : Option Nat := none
  updated_at : Nat
deriving DecidableEq

/-- Models `ContradictionAlert`. -/
structure ContradictionAlert where
  id : String
  entity_id : String
  entity_type : String
  entity_name : String
  claims : List Claim
  verdict : Verdict
  severity : Severity
  temporal_analysis : Option String := none
  recommended_action : ActionType
  recommended_action_details : String
  urgency : Urgency
  created_at : Nat
  resolved : Bool := false
  resolution : Option String := none
  resolved_by : Option String := none
  resolved_at : Option Nat := none
deriving DecidableEq

/-- Models `ActionRecommendation` (the fields the verified operations use). -/
structure ActionRecommendation where
  id : String
  action_type : String
  target_incident_id : Option String := none
  target_location : Option Location := none
  resources_to_allocate : List String := []
  status : AStatus := .pending
  created_at : Nat
  decided_at : Option Nat := none
  decided_by : Option String := none
deriving DecidableEq

/-- Models `SituationGraph` aggregate (the collections the verified operations touch). -/
structure SituationGraph where
  incidents : AList IncidentNode := []
  resources : AList ResourceNode := []
  contradictions : AList ContradictionAlert := []
  pending_actions : AList ActionRecommendation := []
  last_updated : Nat
deriving DecidableEq

/-- Models `SituationGraphManager`: the graph plus the append-only audit log
(audit entries modelled as timestamped event-type tags). -/
structure Manager where
  graph : SituationGraph
  audit_log : List (Nat × String) := []
deriving DecidableEq

/-- Models `_log_event`. -/
def log_event (m : Manager) (now : Nat) (event_type : String) : Manager :=
  { m with audit_log := m.audit_log ++ [(now, event_type)] }

-- ===== SituationGraphManager operations =====
/-- Models `SituationGraphManager.resolve_contradiction`: marks the alert resolved and
records resolution metadata; returns `none` for an unknown id. -/
def resolve_contradiction (m : Manager) (now : Nat) (alert_id : String)
    (resolution : String) (resolved_by : String := "operator") :
    Option ContradictionAlert × Manager :=
  match alookup alert_id m.graph.contradictions with
  | none => (none, m)
  | some alert =>
    let alert' := { alert with
      resolved := true
      resolution := some resolution
      resolved_by := some resolved_by
      resolved_at := some now }
    let m' := { m with graph := { m.graph with
      contradictions := alistUpdate alert_id (fun _ => alert') m.graph.contradictions
      last_updated := now } }
    (some alert', log_event m' now "contradiction_resolved")

/-- The per-resource update performed inside `approve_action`'s resource loop:
`status = dispatched`, `assigned_incident = target_incident_id`,
`eta_minutes = 8`, and `destination = target_location` only when the action
carries a target location. -/
def dispatchUpd (a : ActionRecommendation) (now : Nat) (r : ResourceNode) : ResourceNode :=
  { r with
    status := .dispatched
    assigned_incident := a.target_incident_id
    eta_minutes := some 8
    updated_at := now
    destination := match a.target_location with
      | some l => some l
      | none => r.destination }

/-- One iteration of `approve_action`'s resource loop: dispatch the listed
resource id when it exists in the resource map, else do nothing. -/
def dispatchStep (a : ActionRecommendation) (now : Nat)
    (acc : AList ResourceNode) (rid : String) : AList ResourceNode :=
  if (alookup rid acc).isSome then alistUpdate rid (dispatchUpd a now) acc else acc

/-- The resource loop of `approve_action`: each listed resource id that exists
in the resource map is dispatched. -/
def dispatchResources (a : ActionRecommendation) (now : Nat)
    (l : AList ResourceNode) : AList ResourceNode :=
  a.resources_to_allocate.foldl (dispatchStep a now) l

/-- The incident update of `approve_action`: guarded by Python truthiness of
`target_incident_id` (non-null and non-empty) and membership in the incident
map; sets `status = responding` and extends `assigned_resources` (a plain
`list.extend`, no deduplication). -/
def approveIncidentUpd (a : ActionRecommendation) (now : Nat)
    (l : AList IncidentNode) : AList IncidentNode :=
  match a.target_incident_id with
  | none => l
  | some tid =>
    if tid = "" then l
    else if (alookup tid l).isSome then
      alistUpdate tid (fun inc =>
        { inc with
          status := .responding
          assigned_resources := inc.assigned_resources ++ a.resources_to_allocate
          updated_at := now }) l
    else l

/-- Models `SituationGraphManager.approve_action`. -/
def approve_action (m : Manager) (now : Nat) (action_id : String)
    (decided_by : String := "operator") : Option ActionRecommendation × Manager :=
  match alookup action_id m.graph.pending_actions with
  | none => (none, m)
  | some action =>
    let action' := { action with
      status := .approved
      decided_at := some now
      decided_by := some decided_by }
    let g := m.graph
    let g := { g with
      pending_actions := alistUpdate action_id (fun _ => action') g.pending_actions
      last_updated := now }
    let g := { g with resources := dispatchResources action now g.resources }
    let g := { g with incidents := approveIncidentUpd action now g.incidents }
    (some action', log_event { m with graph := g } now "action_approved")

/-- Models `SituationGraphManager.assign_resource_manual`. -/
def assign_resource_manual (m : Manager) (now : Nat)
    (resource_id incident_id : String) : Option ResourceNode × Manager :=
  match alookup resource_id m.graph.resources, alookup incident_id m.graph.incidents with
  | some resource, some incident =>
    let resource' := { resource with
      status := .dispatched
      assigned_incident := some incident_id
      destination := some incident.location
      eta_minutes := some 8
      updated_at := now }
    let incident' := { incident with
      assigned_resources :=
        if resource_id ∈ incident.assigned_resources then incident.assigned_resources
        else incident.assigned_resources ++ [resource_id]
      updated_at := now }
    let g := { m.graph with
      resources := alistUpdate resource_id (fun _ => resource') m.graph.resources
      incidents := alistUpdate incident_id (fun _ => incident') m.graph.incidents
      last_updated := now }
    (some resource', log_event { m with graph := g } now "resource_assigned")
  | _, _ => (none, m)

/-- The incident cleanup inside `unassign_resource`: guarded by Python
truthiness of the resource's previous `assigned_incident` and membership in
the incident map; removes the resource id from that incident's
`assigned_resources` when listed. -/
def unassignIncidents (resource_id : String) (old_incident_id : Option String)
    (l : AList IncidentNode) : AList IncidentNode :=
  match old_incident_id with
  | none => l
  | some iid =>
    if iid = "" then l
    else if (alookup iid l).isSome then
      alistUpdate iid (fun inc =>
        if resource_id ∈ inc.assigned_resources then
          { inc with assigned_resources := inc.assigned_resources.erase resource_id }
        else inc) l
    else l

/-- Models `SituationGraphManager.unassign_resource`. -/
def unassign_resource (m : Manager) (now : Nat) (resource_id : String) :
    Option ResourceNode × Manager :=
  match alookup resource_id m.graph.resources with
  | none => (none, m)
  | some resource =>
    let old_incident_id := resource.assigned_incident
    let resource' := { resource with
      status := .available
      assigned_incident := none
      destination := none
      eta_minutes := none
      updated_at := now }
    let resources' := alistUpdate resource_id (fun _ => resource') m.graph.resources
    let incidents' := unassignIncidents resource_id old_incident_id m.graph.incidents
    let g := { m.graph with
      resources := resources'
      incidents := incidents'
      last_updated := now }
    (some resource', log_event { m with graph := g } now "resource_unassigned")

/-- The loop body of `decay_confidences`: an `active` incident loses
`decay_rate * elapsed_minutes` confidence, floored at `0.1`; any other
incident is untouched. -/
def decayNode (elapsed_minutes : ℚ) (i : IncidentNode) : IncidentNode :=
  if i.status = .active then
    let decay := i.decay_rate * elapsed_minutes
    { i with confidence := max (1 / 10) (i.confidence - decay) }
  else i

/-- Models `SituationGraphManager.decay_confidences`. -/
def decay_confidences (m : Manager) (now : Nat) (elapsed_minutes : ℚ) : Manager :=
  { m with graph := { m.graph with
      incidents := m.graph.incidents.map (fun p => (p.1, decayNode elapsed_minutes p.2))
      last_updated := now } }

/-- Models `SituationGraphManager.add_contradiction`. -/
def add_contradiction (m : Manager) (now : Nat) (alert : ContradictionAlert) : Manager :=
  log_event { m with graph := { m.graph with
    contradictions := aset alert.id alert m.graph.contradictions
    last_updated := now } } now "contradiction_added"

-- ===== update_incident / update_resource (situation_graph.py lines 44-70) =====
/-- One entry of the `updates` dict passed to `update_incident`.  A key for
which `hasattr(incident, key)` holds is one of the model's attributes
(`set…` constructors); any other key is `unknownKey`. -/
inductive IncidentUpd
  | setId (v : String)
  | setIncidentType (v : String)
  | setLocation (v : Location)
  | setUrgency (v : Urgency)
  | setConfidence (v : ℚ)
  | setDecayRate (v : ℚ)
  | setStatus (v : IStatus)
  | setAssignedResources (v : List String)
  | setUpdatedAt (v : Nat)
  | unknownKey (k : String)
deriving DecidableEq

/-- The loop body of `update_incident`: `setattr` for a key that names an
attribute, no-op otherwise. -/
def applyIncidentUpd (i : IncidentNode) : IncidentUpd → IncidentNode
  | .setId v => { i with id := v }
  | .setIncidentType v => { i with incident_type := v }
  | .setLocation v => { i with location := v }
  | .setUrgency v => { i with urgency := v }
  | .setConfidence v => { i with confidence := v }
  | .setDecayRate v => { i with decay_rate := v }
  | .setStatus v => { i with status := v }
  | .setAssignedResources v => { i with assigned_resources := v }
  | .setUpdatedAt v => { i with updated_at := v }
  | .unknownKey _ => i

/-- Models `SituationGraphManager.update_incident`. -/
def update_incident (m : Manager) (now : Nat) (incident_id : String)
    (updates : List IncidentUpd) : Option IncidentNode × Manager :=
  match alookup incident_id m.graph.incidents with
  | none => (none, m)
  | some incident =>
    let incident' := { updates.foldl applyIncidentUpd incident with updated_at := now }
    let m' := { m with graph := { m.graph with
      incidents := alistUpdate incident_id (fun _ => incident') m.graph.incidents
      last_updated := now } }
    (some incident', log_event m' now "incident_updated")

/-- One entry of the `updates` dict passed to `update_resource`. -/
inductive ResourceUpd
  | setId (v : String)
  | setResourceType (v : String)
  | setUnitId (v : String)
  | setCurrentLocation (v : Location)
  | setDestination (v : Option Location)
  | setStatus (v : RStatus)
  | setAssignedIncident (v : Option String)
  | setEtaMinutes (v : Option Nat)
  | setUpdatedAt (v : Nat)
  | unknownKey (k : String)
deriving DecidableEq

/-- The loop body of `update_resource`. -/
def applyResourceUpd (r : ResourceNode) : ResourceUpd → ResourceNode
  | .setId v => { r with id := v }
  | .setResourceType v => { r with resource_type := v }
  | .setUnitId v => { r with unit_id := v }
  | .setCurrentLocation v => { r with current_location := v }
  | .setDestination v => { r with destination := v }
  | .setStatus v => { r with status := v }
  | .setAssignedIncident v => { r with assigned_incident := v }
  | .setEtaMinutes v => { r with eta_minutes := v }
  | .setUpdatedAt v => { r with updated_at := v }
  | .unknownKey _ => r

/-- Models `SituationGraphManager.update_resource`. -/
def update_resource (m : Manager) (now : Nat) (resource_id : String)
    (updates : List ResourceUpd) : Option ResourceNode × Manager :=
  match alookup resource_id m.graph.resources with
  | none => (none, m)
  | some resource =>
    let resource' := { updates.foldl applyResourceUpd resource with updated_at := now }
    let m' := { m with graph := { m.graph with
      resources := alistUpdate resource_id (fun _ => resource') m.graph.resources
      last_updated := now } }
    (some resource', m')

/-- Tags for the attributes of the modelled `IncidentNode`. -/
inductive IField
  | fId
  | fIncidentType
  | fLocation
  | fUrgency
  | fConfidence
  | fDecayRate
  | fStatus
  | fAssignedResources
  | fUpdatedAt
deriving DecidableEq

/-- Sum of the incident attribute value types, used to state frame
properties uniformly. -/
inductive IVal
  | vs (v : String)
  | vl (v : Location)
  | vu (v : Urgency)
  | vq (v : ℚ)
  | vst (v : IStatus)
  | vls (v : List String)
  | vn (v : Nat)
deriving DecidableEq

/-- Read an incident attribute by tag. -/
def getFI (i : IncidentNode) : IField → IVal
  | .fId => .vs i.id
  | .fIncidentType => .vs i.incident_type
  | .fLocation => .vl i.location
  | .fUrgency => .vu i.urgency
  | .fConfidence => .vq i.confidence
  | .fDecayRate => .vq i.decay_rate
  | .fStatus => .vst i.status
  | .fAssignedResources => .vls i.assigned_resources
  | .fUpdatedAt => .vn i.updated_at

/-- The attribute an update entry writes, `none` for an unknown key. -/
def IncidentUpd.target : IncidentUpd → Option IField
  | .setId _ => some .fId
  | .setIncidentType _ => some .fIncidentType
  | .setLocation _ => some .fLocation
  | .setUrgency _ => some .fUrgency
  | .setConfidence _ => some .fConfidence
  | .setDecayRate _ => some .fDecayRate
  | .setStatus _ => some .fStatus
  | .setAssignedResources _ => some .fAssignedResources
  | .setUpdatedAt _ => some .fUpdatedAt
  | .unknownKey _ => none

/-- Tags for the attributes of the modelled `ResourceNode`. -/
inductive RField
  | fId
  | fResourceType
  | fUnitId
  | fCurrentLocation
  | fDestination
  | fStatus
  | fAssignedIncident
  | fEtaMinutes
  | fUpdatedAt
deriving DecidableEq

/-- Sum of the resource attribute value types. -/
inductive RVal
  | vs (v : String)
  | vl (v : Location)
  | vol (v : Option Location)
  | vst (v : RStatus)
  | vos (v : Option String)
  | von (v : Option Nat)
  | vn (v : Nat)
deriving DecidableEq

/-- Read a resource attribute by tag. -/
def getFR (r : ResourceNode) : RField → RVal
  | .fId => .vs r.id
  | .fResourceType => .vs r.resource_type
  | .fUnitId => .vs r.unit_id
  | .fCurrentLocation => .vl r.current_location
  | .fDestination => .vol r.destination
  | .fStatus => .vst r.status
  | .fAssignedIncident => .vos r.assigned_incident
  | .fEtaMinutes => .von r.eta_minutes
  | .fUpdatedAt => .vn r.updated_at

/-- The attribute a resource update entry writes, `none` for an unknown key. -/
def ResourceUpd.target : ResourceUpd → Option RField
  | .setId _ => some .fId
  | .setResourceType _ => some .fResourceType
  | .setUnitId _ => some .fUnitId
  | .setCurrentLocation _ => some .fCurrentLocation
  | .setDestination _ => some .fDestination
  | .setStatus _ => some .fStatus
  | .setAssignedIncident _ => some .fAssignedIncident
  | .setEtaMinutes _ => some .fEtaMinutes
  | .setUpdatedAt _ => some .fUpdatedAt
  | .unknownKey _ => none

/-- Whether an incident update entry names an existing attribute. -/
def IncidentUpd.isKnown : IncidentUpd → Bool
  | .unknownKey _ => false
  | _ => true

/-- Whether a resource update entry names an existing attribute. -/
def ResourceUpd.isKnown : ResourceUpd → Bool
  | .unknownKey _ => false
  | _ => true

-- ===== _parse_urgency (coordinator.py lines 29-35) =====
/-- Does `needle` occur as a prefix of `hay`? -/
def isPre : List Char → List Char → Bool
  | [], _ => true
  | _ :: _, [] => false
  | b :: bs, a :: as_ => a = b && isPre bs as_

/-- Python `needle in hay` substring test on character lists. -/
def hasSubstr (needle : List Char) : List Char → Bool
  | [] => isPre needle []
  | c :: t => isPre needle (c :: t) || hasSubstr needle t

/-- Models `_parse_urgency`: lowercase the raw string, then return the first of
`critical`, `high`, `medium`, `low` contained in it, else `high`. -/
def parse_urgency (raw : String) : Urgency :=
  let lowered := raw.data.map Char.toLower
  if hasSubstr "critical".data lowered then .critical
  else if hasSubstr "high".data lowered then .high
  else if hasSubstr "medium".data lowered then .medium
  else if hasSubstr "low".data lowered then .low
  else .high

/-- Models `needle` occurs contiguously inside `hay` (decidable by construction;
the claim theorem proves it equivalent to the existence of a
decomposition `hay = a ++ needle ++ b`). -/
abbrev ContainsSub (needle hay : List Char) : Prop :=
  hasSubstr needle hay = true

-- ===== contradiction detector state machine (coordinator.py lines 251-354) =====
/-- Provenance-tagged record of one contradiction alert, for the detector
invariant: `viaDetector` marks alerts created by `_check_contradictions`
(as opposed to `_inject_contradiction`). -/
structure AlertRec where
  id : String
  entity_name : String
  resolved : Bool
  viaDetector : Bool
deriving DecidableEq

/-- The coordinator components the contradiction logic touches:
`signal_claims`, `handled_contradictions`, and the alerts in the graph. -/
structure DetState where
  signal_claims : AList (List Claim)
  handled : List String
  alerts : List AlertRec
deriving DecidableEq

/-- Claim accumulation for one text-signal claim
(`_update_graph_from_output`, text branch): claims with an empty entity
name or a handled entity are dropped; others are appended to the entity's
list (created on demand). -/
def accumClaim (s : DetState) (entity : String) (c : Claim) : DetState :=
  if entity = "" then s
  else if entity ∈ s.handled then s
  else
    let old := (alookup entity s.signal_claims).getD []
    { s with signal_claims := aset entity (old ++ [c]) s.signal_claims }

/-- Outcome of one verification-analyzer call as seen by the detector:
either an exception or a verdict string from the output dict. -/
inductive VerOutcome
  | err
  | verdict (v : String)

/-- The loop body of `_check_contradictions`, iterating a snapshot of
`signal_claims.items()`.  An adverse verdict creates one detector alert,
marks the entity handled, deletes its claims and stops; an exception
deletes the claims and continues; anything else continues. -/
def checkLoop (oracle : String → VerOutcome) (alert_id : String) :
    List (String × List Claim) → DetState → DetState
  | [], s => s
  | (entity, claims) :: rest, s =>
    if (alookup entity s.signal_claims).isNone then checkLoop oracle alert_id rest s
    else if entity ∈ s.handled then checkLoop oracle alert_id rest s
    else if 2 ≤ claims.length then
      match oracle entity with
      | .err =>
        checkLoop oracle alert_id rest { s with signal_claims := aerase entity s.signal_claims }
      | .verdict v =>
        if v = "CONTRADICTION" ∨ v = "TEMPORAL_GAP" then
          { s with
            alerts := s.alerts ++ [⟨alert_id, entity, false, true⟩]
            handled := entity :: s.handled
            signal_claims := aerase entity s.signal_claims }
        else checkLoop oracle alert_id rest s
    else checkLoop oracle alert_id rest s

/-- Models `_check_contradictions`. -/
def check_contradictions (oracle : String → VerOutcome) (alert_id : String)
    (s : DetState) : DetState :=
  checkLoop oracle alert_id s.signal_claims s

/-- Models `_inject_contradiction` as it affects the detector state: pushes the
event's claims unconditionally, then (when the entity has at least two
claims) either creates one non-detector alert, marks the entity handled
and deletes its claims, or — on analyzer failure — just deletes the
claims. -/
def injectLite (s : DetState) (entity : String) (cs : List Claim) (ts : String)
    (alert_id : String) (fails : Bool) : DetState :=
  let old : List Claim := (alookup entity s.signal_claims).getD []
  let pushed : List Claim := old ++ cs.map (fun c => { c with timestamp := ts })
  let s1 := { s with signal_claims := aset entity pushed s.signal_claims }
  if 2 ≤ pushed.length then
    if fails then { s1 with signal_claims := aerase entity s1.signal_claims }
    else { s1 with
      alerts := s1.alerts ++ [⟨alert_id, entity, false, false⟩]
      handled := entity :: s1.handled
      signal_claims := aerase entity s1.signal_claims }
  else s1

/-- Models `resolve_contradiction` as it affects the detector state: marks the
alert with the given id resolved. -/
def resolveAlertRec (s : DetState) (alert_id : String) : DetState :=
  { s with alerts := s.alerts.map (fun a =>
      if a.id = alert_id then { a with resolved := true } else a) }

/-- Models `reset_simulation` clears the claim tracker, the handled set, and the
graph (hence all alerts). -/
def resetDet : DetState := ⟨[], [], []⟩

/-- Reachable coordinator states as far as the contradiction structures
are concerned.  Constructors cover every source operation that touches
`signal_claims`, `handled_contradictions` or the alert store; every other
coordinator operation leaves these components unchanged. -/
inductive Reach : DetState → Prop
  | init : Reach ⟨[], [], []⟩
  | accum (s : DetState) (entity : String) (c : Claim) :
      Reach s → Reach (accumClaim s entity c)
  | check (s : DetState) (oracle : String → VerOutcome) (alert_id : String) :
      Reach s → Reach (check_contradictions oracle alert_id s)
  | inject (s : DetState) (entity : String) (cs : List Claim) (ts alert_id : String)
      (fails : Bool) : Reach s → Reach (injectLite s entity cs ts alert_id fails)
  | resolveStep (s : DetState) (alert_id : String) :
      Reach s → Reach (resolveAlertRec s alert_id)
  | reset (s : DetState) : Reach s → Reach resetDet

/-- Number of detector-created alerts for an entity name in a list. -/
def detCountL (e : String) (l : List AlertRec) : Nat :=
  (l.filter (fun a => a.entity_name = e && a.viaDetector)).length

/-- Number of detector-created alerts for an entity name. -/
def detCount (e : String) (s : DetState) : Nat :=
  detCountL e s.alerts

/-- Number of unresolved detector-created alerts for an entity name. -/
def unresolvedDetCount (e : String) (s : DetState) : Nat :=
  (s.alerts.filter (fun a => a.entity_name = e && a.viaDetector && !a.resolved)).length

/-- Inductive invariant: at most one detector alert per entity ever exists,
and its entity is in the handled set. -/
def DetInv (s : DetState) : Prop :=
  ∀ e, detCountL e s.alerts ≤ 1 ∧ (1 ≤ detCountL e s.alerts → e ∈ s.handled)

-- ===== planning trigger (coordinator.py lines 356-431) =====
/-- Gate: some active incident with urgency critical or high and no
assigned resources. -/
def criticalIncidentsExist (g : SituationGraph) : Bool :=
  g.incidents.any (fun p =>
    (p.2.urgency = .critical || p.2.urgency = .high) && p.2.status = .active
      && p.2.assigned_resources.isEmpty)

/-- Number of pending actions. -/
def pendingCount (g : SituationGraph) : Nat :=
  (g.pending_actions.filter (fun p => p.2.status = .pending)).length

/-- Gate: at least one resource with status `available`
(`get_available_resources` is non-empty). -/
def availableResourcesExist (g : SituationGraph) : Bool :=
  g.resources.any (fun p => p.2.status = .available)

/-- The planning clock: optional last-invocation stamp and the cooldown. -/
structure PlanClock where
  last_planning_call : Option ℚ
  planning_cooldown_seconds : ℚ := 20
deriving DecidableEq

/-- The cooldown gate of `_maybe_generate_recommendations`: passes when no
stamp exists or when at least the cooldown has elapsed since the stamp. -/
def cooldownOk (now : ℚ) (c : PlanClock) : Bool :=
  match c.last_planning_call with
  | none => true
  | some t => !(now - t < c.planning_cooldown_seconds)

/-- One call of `_maybe_generate_recommendations` at time `now` against
graph snapshot `g`: early-returns unless every gate holds (cooldown,
unassigned critical/high active incident, fewer than 3 pending actions,
an available resource); when all gates hold it stamps the clock *before*
the analyzer call and then invokes the planning analyzer, whose outcome
`analyzer_fails` (an exception is caught and only skips adding the
recommendation) affects neither the stamp nor the fact of invocation.
The flag records whether the analyzer was invoked. -/
def maybe_generate_recommendations (now : ℚ) (g : SituationGraph) (c : PlanClock)
    (analyzer_fails : Bool) : PlanClock × Bool :=
  if !cooldownOk now c then (c, false)
  else if !criticalIncidentsExist g then (c, false)
  else if !(pendingCount g < 3) then (c, false)
  else if !availableResourcesExist g then (c, false)
  else ({ c with last_planning_call := some now }, true)

/-- Run a trace of `_maybe_generate_recommendations` calls; each trace
entry supplies the call time, the graph snapshot seen at that time and the
analyzer outcome of that call; output entries record the call time,
whether the planning analyzer was invoked, and the clock after the call. -/
def runPlanning (c : PlanClock) :
    List (ℚ × SituationGraph × Bool) → List (ℚ × Bool × PlanClock)
  | [] => []
  | (t, g, af) :: rest =>
    let step := maybe_generate_recommendations t g c af
    (t, step.2, step.1) :: runPlanning step.1 rest

/-- The times at which the planning analyzer was invoked along a trace. -/
def firedTimes (c : PlanClock) (steps : List (ℚ × SituationGraph × Bool)) : List ℚ :=
  (runPlanning c steps).filterMap (fun e => if e.2.1 then some e.1 else none)

-- ===== _inject_contradiction (simulation.py lines 198-282) =====
/-- The `data` dict of a `contradiction_inject` scenario event. -/
structure InjectData where
  entity : Option String := none
  entity_type : Option String := none
  claims : List Claim := []
  force_verdict : Option String := none
  temporal_analysis : Option String := none
deriving DecidableEq

/-- The fields of the verification analyzer's output dict that the
injection path reads. -/
structure VerData where
  verdict : Option String := none
  temporal_analysis : Option String := none
  recommended_action : Option String := none
  recommended_action_details : Option String := none
deriving DecidableEq

/-- Verification analyzer result: an exception or an output dict. -/
inductive VerResult
  | err
  | ok (d : VerData)

/-- Models `verdict_map.get(verdict_str, Verdict.CONTRADICTION)` of the injection
path (unknown strings default to `contradiction`). -/
def verdictMapInject (s : String) : Verdict :=
  if s = "CONTRADICTION" then .contradiction
  else if s = "TEMPORAL_GAP" then .temporal_gap
  else if s = "CONSISTENT" then .consistent
  else if s = "UNCERTAIN" then .uncertain
  else .contradiction

/-- Models `action_map.get(..., ActionType.REQUEST_VERIFICATION)`. -/
def actionMapInject (s : String) : ActionType :=
  if s = "REQUEST_VERIFICATION" then .request_verification
  else if s = "FLAG_FOR_HUMAN" then .flag_for_human
  else if s = "ACCEPT" then .accept
  else if s = "WAIT" then .wait
  else .request_verification

/-- Models `entity_name.lower().replace(" ", "_")`. -/
def pyEntityId (s : String) : String :=
  ⟨s.data.map (fun ch => if ch.toLower = ' ' then '_' else ch.toLower)⟩

/-- Models `sim_time.strftime("%H:%M")`, abstracted: render the simulation instant. -/
def fmtHM (t : Nat) : String := toString t

/-- Coordinator state as seen by the injection path: the claim tracker,
the handled set, and the graph manager. -/
structure CoordState where
  signal_claims : AList (List Claim)
  handled : List String
  mgr : Manager
deriving DecidableEq

/-- Python `a or b` where `a` is an optional string (absent dict key or
`None` maps to `none`) and empty strings are falsy. -/
def pyOrStr (a : Option String) (b : String) : String :=
  match a with
  | some s => if s = "" then b else s
  | none => b

/-- Models `_inject_contradiction`: pushes the event's claims (re-stamped with the
simulation time) into the tracker; when the entity then has at least two
claims, consults the verification analyzer and builds one alert — the
verdict string is the analyzer's when its output carries a `verdict` key,
else the event's `force_verdict`, else `"CONTRADICTION"`; severity and
urgency are `high` unconditionally.  The alert is stored in the graph, the
entity is marked handled and its claim list deleted.  On analyzer failure
the claim list is deleted and no alert is created. -/
def inject_contradiction (co : CoordState) (data : InjectData) (ver : VerResult)
    (alert_id : String) (sim_time now : Nat) : CoordState × Option ContradictionAlert :=
  let entity_name := data.entity.getD "Unknown"
  let old : List Claim := (alookup entity_name co.signal_claims).getD []
  let pushed : List Claim :=
    old ++ data.claims.map (fun c => { c with timestamp := fmtHM sim_time })
  let co1 := { co with signal_claims := aset entity_name pushed co.signal_claims }
  if 2 ≤ pushed.length then
    match ver with
    | .err => ({ co1 with signal_claims := aerase entity_name co1.signal_claims }, none)
    | .ok ver_data =>
      let verdict_str := ver_data.verdict.getD (data.force_verdict.getD "CONTRADICTION")
      let alert : ContradictionAlert := {
        id := alert_id
        entity_id := pyEntityId entity_name
        entity_type := data.entity_type.getD "infrastructure"
        entity_name := entity_name
        claims := pushed
        verdict := verdictMapInject verdict_str
        severity := .high
        temporal_analysis :=
          some (pyOrStr ver_data.temporal_analysis (data.temporal_analysis.getD ""))
        recommended_action :=
          actionMapInject (ver_data.recommended_action.getD "REQUEST_VERIFICATION")
        recommended_action_details :=
          ver_data.recommended_action_details.getD "Deploy aerial verification"
        urgency := .high
        created_at := sim_time }
      let co2 := { co1 with
        mgr := add_contradiction co1.mgr now alert
        handled := entity_name :: co1.handled
        signal_claims := aerase entity_name co1.signal_claims }
      (co2, some alert)
  else (co1, none)

-- ===== concrete fixtures =====
/-- Origin location used by the concrete test states. -/
def loc0 : Location := { lat := 0, lng := 0 }

/-- A second concrete location. -/
def loc1 : Location := { lat := 1, lng := 2 }

/-- A concrete already-resolved contradiction alert. -/
def alertK : ContradictionAlert := {
  id := "alert_1"
  entity_id := "main_street_bridge"
  entity_type := "infrastructure"
  entity_name := "Main Street Bridge"
  claims := []
  verdict := .contradiction
  severity := .high
  recommended_action := .flag_for_human
  recommended_action_details := ""
  urgency := .high
  created_at := 0
  resolved := true
  resolution := some "keep"
  resolved_by := some "alice"
  resolved_at := some 3 }

/-- Manager holding only `alertK`. -/
def mgrC6 : Manager := {
  graph := { contradictions := [("alert_1", alertK)], last_updated := 0 } }

/-- An active incident whose confidence is already below the decay floor. -/
def incLow : IncidentNode := {
  id := "inc_a"
  incident_type := "damage"
  location := loc0
  urgency := .high
  confidence := 1 / 20
  decay_rate := 1 / 100
  status := .active
  assigned_resources := []
  updated_at := 0 }

/-- An active incident with a negative decay rate. -/
def incNeg : IncidentNode := {
  id := "inc_b"
  incident_type := "damage"
  location := loc0
  urgency := .high
  confidence := 1 / 2
  decay_rate := -1
  status := .active
  assigned_resources := []
  updated_at := 0 }

/-- Manager holding the two decay test incidents. -/
def mgrC5 : Manager := {
  graph := { incidents := [("inc_a", incLow), ("inc_b", incNeg)], last_updated := 0 } }

-- ===== C1: approve_action =====
/-- A resource already carrying a destination, used by the C1 counterexample. -/
def resC1 : ResourceNode := {
  id := "r1"
  resource_type := "ambulance"
  unit_id := "AMB-1"
  current_location := loc0
  destination := some loc1
  status := .available
  assigned_incident := none
  eta_minutes := none
  updated_at := 0 }

/-- An incident that already lists `r1`, used by the C1 counterexample. -/
def incC1 : IncidentNode := {
  id := "i1"
  incident_type := "damage"
  location := loc0
  urgency := .critical
  confidence := 1 / 2
  decay_rate := 1 / 100
  status := .active
  assigned_resources := ["r1"]
  updated_at := 0 }

/-- A pending action over `r1` targeting `i1` with no target location. -/
def actC1 : ActionRecommendation := {
  id := "a1"
  action_type := "dispatch_resources"
  target_incident_id := some "i1"
  target_location := none
  resources_to_allocate := ["r1"]
  status := .pending
  created_at := 0 }

/-- Manager for the C1 counterexample. -/
def mgrC1 : Manager := {
  graph := {
    incidents := [("i1", incC1)]
    resources := [("r1", resC1)]
    pending_actions := [("a1", actC1)]
    last_updated := 0 } }

-- ===== C3: resource status invariant =====
/-- The C3 resource invariant: `dispatched` implies a non-null assigned
incident and destination; `available` implies a null assigned incident. -/
def ResourceInvariant (g : SituationGraph) : Prop :=
  ∀ p ∈ g.resources,
    (p.2.status = .dispatched → p.2.assigned_incident ≠ none ∧ p.2.destination ≠ none)
    ∧ (p.2.status = .available → p.2.assigned_incident = none)

/-- Side condition under which `approve_action` preserves the resource
invariant: every pending action carries a non-null target incident id and
a non-null target location. -/
def ActionsTargeted (g : SituationGraph) : Prop :=
  ∀ p ∈ g.pending_actions,
    p.2.target_incident_id ≠ none ∧ p.2.target_location ≠ none

/-- The mutation operations the C3 claim quantifies over. -/
inductive MutOp
  | approve (now : Nat) (action_id decided_by : String)
  | assign (now : Nat) (resource_id incident_id : String)
  | unassign (now : Nat) (resource_id : String)

/-- Apply one mutation operation to the manager. -/
def applyOp (m : Manager) : MutOp → Manager
  | .approve now action_id decided_by => (approve_action m now action_id decided_by).2
  | .assign now resource_id incident_id =>
      (assign_resource_manual m now resource_id incident_id).2
  | .unassign now resource_id => (unassign_resource m now resource_id).2

/-- Apply a sequence of mutation operations. -/
def applyOps (m : Manager) (ops : List MutOp) : Manager :=
  ops.foldl applyOp m

/-- A clean available resource. -/
def resAvail : ResourceNode := {
  id := "r1"
  resource_type := "ambulance"
  unit_id := "AMB-1"
  current_location := loc0
  destination := none
  status := .available
  assigned_incident := none
  eta_minutes := none
  updated_at := 0 }

/-- A pending action over `r1` with a null target incident id. -/
def actC3 : ActionRecommendation := {
  id := "a1"
  action_type := "dispatch_resources"
  target_incident_id := none
  target_location := none
  resources_to_allocate := ["r1"]
  status := .pending
  created_at := 0 }

/-- Manager for the C3 counterexample. -/
def mgrC3 : Manager := {
  graph := {
    resources := [("r1", resAvail)]
    pending_actions := [("a1", actC3)]
    last_updated := 0 } }

/-- A plain active incident with no assigned resources. -/
def incPlain : IncidentNode := {
  id := "i1"
  incident_type := "damage"
  location := loc0
  urgency := .critical
  confidence := 1 / 2
  decay_rate := 1 / 100
  status := .active
  assigned_resources := []
  updated_at := 0 }

/-- A pending action over `r1` with non-null targets. -/
def actC3good : ActionRecommendation := {
  id := "a2"
  action_type := "dispatch_resources"
  target_incident_id := some "i1"
  target_location := some loc0
  resources_to_allocate := ["r1"]
  status := .pending
  created_at := 0 }

/-- Manager for the C3 witness. -/
def mgrC3w : Manager := {
  graph := {
    incidents := [("i1", incPlain)]
    resources := [("r1", resAvail)]
    pending_actions := [("a2", actC3good)]
    last_updated := 0 } }

-- ===== C7: manual assign / unassign round trip =====
/-- An available resource that still carries a stale `eta_minutes`. -/
def resC7 : ResourceNode := {
  id := "r1"
  resource_type := "ambulance"
  unit_id := "AMB-1"
  current_location := loc0
  destination := none
  status := .available
  assigned_incident := none
  eta_minutes := some 3
  updated_at := 0 }

/-- Manager for the C7 counterexample. -/
def mgrC7 : Manager := {
  graph := {
    incidents := [("i1", incPlain)]
    resources := [("r1", resC7)]
    last_updated := 0 } }

/-- Manager for the C7 witness (clean available resource). -/
def mgrC7w : Manager := {
  graph := {
    incidents := [("i1", incPlain)]
    resources := [("r1", resAvail)]
    last_updated := 0 } }

/-- Oracle that always reports a contradiction. -/
def oracleContra : String → VerOutcome := fun _ => .verdict "CONTRADICTION"

/-- A first concrete claim. -/
def claimA : Claim := {
  source := "text_1"
  source_type := "social_media"
  claim := "bridge collapsed"
  confidence := 72 / 100
  timestamp := "10:00" }

/-- A second concrete claim. -/
def claimB : Claim := {
  source := "text_2"
  source_type := "official"
  claim := "bridge intact"
  confidence := 89 / 100
  timestamp := "10:05" }

/-- A fresh planning clock (no stamp, default 20 s cooldown). -/
def clock0 : PlanClock := { last_planning_call := none }

/-- A graph snapshot passing the non-cooldown planning gates. -/
def gGood : SituationGraph := {
  incidents := [("i1", incPlain)]
  resources := [("r1", resAvail)]
  last_updated := 0 }

/-- A concrete three-call planning trace at times 0, 10, 25 seconds. -/
def stepsW : List (ℚ × SituationGraph × Bool) :=
  [(0, gGood, false), (10, gGood, false), (25, gGood, false)]

-- ===== C8: scripted contradiction injection =====
/-- The `contradiction_inject` event of the bridge demo: two claims and a
forced CONTRADICTION verdict. -/
def injectData8 : InjectData := {
  entity := some "Main Street Bridge"
  entity_type := some "infrastructure"
  claims := [claimA, claimB]
  force_verdict := some "CONTRADICTION"
  temporal_analysis := none }

/-- An analyzer output whose verdict would downgrade the forced one. -/
def verConsistent : VerData := { verdict := some "CONSISTENT" }

/-- An empty coordinator state. -/
def co8 : CoordState := {
  signal_claims := []
  handled := []
  mgr := { graph := { last_updated := 0 } } }

-- ===== theorems =====

-- ===== association-list lemmas =====
theorem alookup_alistUpdate_self {α : Type} (k : String) (f : α → α) (l : AList α) :
    alookup k (alistUpdate k f l) = (alookup k l).map f := by
  induction l with
  | nil => rfl
  | cons p rest ih =>
    obtain ⟨k', v⟩ := p
    by_cases h : k' = k <;> simp [alistUpdate, alookup, h, ih]

theorem alookup_alistUpdate_ne {α : Type} {k k' : String} (f : α → α) (l : AList α)
    (h : k' ≠ k) : alookup k' (alistUpdate k f l) = alookup k' l := by
  induction l with
  | nil => rfl
  | cons p rest ih =>
    obtain ⟨k₀, v⟩ := p
    by_cases h0 : k₀ = k
    · subst h0
      have hne : ¬ k₀ = k' := fun hh => h hh.symm
      simp [alistUpdate, alookup, hne]
    · by_cases h1 : k₀ = k' <;> simp [alistUpdate, alookup, h0, h1, h, ih]

theorem mem_alistUpdate {α : Type} {x : String × α} {k : String} {f : α → α} :
    ∀ {l : AList α}, x ∈ alistUpdate k f l → x ∈ l ∨ ∃ v, (k, v) ∈ l ∧ x = (k, f v) := by
  intro l
  induction l with
  | nil => intro hx; simp [alistUpdate] at hx
  | cons p rest ih =>
    intro hx
    obtain ⟨k₀, v₀⟩ := p
    by_cases h0 : k₀ = k
    · rw [alistUpdate, if_pos h0] at hx
      rcases List.mem_cons.mp hx with h | h
      · exact Or.inr ⟨v₀, by simp [h0], by rw [h, h0]⟩
      · exact Or.inl (List.mem_cons_of_mem _ h)
    · rw [alistUpdate, if_neg h0] at hx
      rcases List.mem_cons.mp hx with h | h
      · exact Or.inl (by simp [h])
      · rcases ih h with h' | ⟨v, hv, hxv⟩
        · exact Or.inl (List.mem_cons_of_mem _ h')
        · exact Or.inr ⟨v, List.mem_cons_of_mem _ hv, hxv⟩

theorem alistUpdate_keys {α : Type} (k : String) (f : α → α) (l : AList α) :
    (alistUpdate k f l).map Prod.fst = l.map Prod.fst := by
  induction l with
  | nil => rfl
  | cons p rest ih =>
    obtain ⟨k₀, v₀⟩ := p
    by_cases h0 : k₀ = k <;> simp [alistUpdate, h0, ih]

theorem alookup_eq_none_of_not_mem {α : Type} {k : String} {l : AList α}
    (h : k ∉ l.map Prod.fst) : alookup k l = none := by
  induction l with
  | nil => rfl
  | cons p rest ih =>
    obtain ⟨k₀, v₀⟩ := p
    simp only [List.map_cons, List.mem_cons] at h
    push_neg at h
    simp [alookup, Ne.symm h.1, ih h.2]

theorem alookup_aerase_self {α : Type} {k : String} {l : AList α}
    (h : (l.map Prod.fst).Nodup) : alookup k (aerase k l) = none := by
  induction l with
  | nil => rfl
  | cons p rest ih =>
    obtain ⟨k₀, v₀⟩ := p
    simp only [List.map_cons, List.nodup_cons] at h
    by_cases h0 : k₀ = k
    · subst h0
      rw [aerase, if_pos rfl]
      exact alookup_eq_none_of_not_mem h.1
    · rw [aerase, if_neg h0]
      simp [alookup, h0, ih h.2]

theorem alookup_isSome_iff {α : Type} (k : String) (l : AList α) :
    (alookup k l).isSome = true ↔ k ∈ l.map Prod.fst := by
  induction l with
  | nil => simp [alookup]
  | cons p rest ih =>
    obtain ⟨k₀, v₀⟩ := p
    by_cases h0 : k₀ = k
    · subst h0
      simp [alookup]
    · simp [alookup, h0, Ne.symm h0, ih]

theorem alookup_append_single {α : Type} (k : String) (v : α) (l : AList α)
    (h : k ∉ l.map Prod.fst) : alookup k (l ++ [(k, v)]) = some v := by
  induction l with
  | nil => simp [alookup]
  | cons p rest ih =>
    obtain ⟨k₀, v₀⟩ := p
    simp only [List.map_cons, List.mem_cons] at h
    push_neg at h
    simp [alookup, Ne.symm h.1, ih h.2]

theorem aset_keys_nodup {α : Type} (k : String) (v : α) {l : AList α}
    (h : (l.map Prod.fst).Nodup) : ((aset k v l).map Prod.fst).Nodup := by
  unfold aset
  by_cases hk : (alookup k l).isSome
  · simp only [hk, if_true]
    simpa [alistUpdate_keys] using h
  · have hk' : k ∉ l.map Prod.fst := fun hmem =>
      hk ((alookup_isSome_iff k l).mpr hmem)
    have hd : (l.map Prod.fst).Disjoint [k] := by
      intro a ha hb
      rw [List.mem_singleton] at hb
      subst hb
      exact hk' ha
    simp only [hk, Bool.false_eq_true, if_false, List.map_append, List.map_cons, List.map_nil]
    exact List.Nodup.append h (List.nodup_singleton k) hd

theorem alookup_aset_self {α : Type} (k : String) (v : α) (l : AList α) :
    alookup k (aset k v l) = some v := by
  unfold aset
  by_cases hk : (alookup k l).isSome
  · rcases Option.isSome_iff_exists.mp hk with ⟨w, hw⟩
    simp [hk, alookup_alistUpdate_self, hw]
  · have hk' : k ∉ l.map Prod.fst := fun hmem =>
      hk ((alookup_isSome_iff k l).mpr hmem)
    simp only [hk, Bool.false_eq_true, if_false]
    exact alookup_append_single k v l hk'

-- ===== C6: resolving an already-resolved contradiction =====
/-- C6 counterexample: `alert_1` is already resolved with resolution
`keep`, yet a second `resolve_contradiction` call returns a record whose
resolution is the *new* value `discard` — not the same record unchanged. -/
theorem resolve_contradiction_again_not_noop :
    alertK.resolved = true
    ∧ alertK.resolution = some "keep"
    ∧ (resolve_contradiction mgrC6 9 "alert_1" "discard" "bob").1.map (fun a => a.resolution)
        = some (some "discard")
    ∧ (resolve_contradiction mgrC6 9 "alert_1" "discard" "bob").1 ≠ some alertK := by
  exact ⟨rfl, rfl, rfl, by decide⟩

/-- C6 (amended): re-resolving an already-resolved alert is not a no-op:
for any alert id present in the map — already resolved or not —
`resolve_contradiction` overwrites `resolution`, `resolved_by` and
`resolved_at` with the new call's values (and keeps `resolved = true`),
returning the overwritten record and storing it back in the graph. -/
theorem resolve_contradiction_overwrites (m : Manager) (now : Nat)
    (alert_id resolution decider : String) (a : ContradictionAlert)
    (h : alookup alert_id m.graph.contradictions = some a) :
    (resolve_contradiction m now alert_id resolution decider).1
      = some { a with
          resolved := true
          resolution := some resolution
          resolved_by := some decider
          resolved_at := some now }
    ∧ alookup alert_id
        (resolve_contradiction m now alert_id resolution decider).2.graph.contradictions
      = some { a with
          resolved := true
          resolution := some resolution
          resolved_by := some decider
          resolved_at := some now } := by
  unfold resolve_contradiction
  rw [h]
  exact ⟨rfl, by simp [log_event, alookup_alistUpdate_self, h]⟩

/-- Witness for the amended C6 theorem at a concrete state. -/
theorem resolve_contradiction_overwrites_witness :
    (resolve_contradiction mgrC6 9 "alert_1" "discard" "bob").1
      = some { alertK with
          resolved := true
          resolution := some "discard"
          resolved_by := some "bob"
          resolved_at := some 9 } :=
  (resolve_contradiction_overwrites mgrC6 9 "alert_1" "discard" "bob" alertK rfl).1

-- ===== C5: confidence decay =====
/-- C5 counterexample: `decay_confidences` is not monotonic non-increasing
on every incident.  With confidence `0.05 < 0.1` the floor *raises* the
confidence to `0.1`; with a negative `decay_rate` the confidence grows. -/
theorem decay_confidences_not_monotone :
    ((alookup "inc_a" (decay_confidences mgrC5 7 1).graph.incidents).map
        (fun i => i.confidence) = some (1 / 10)
      ∧ incLow.confidence = 1 / 20
      ∧ ¬ ((1 : ℚ) / 10 ≤ 1 / 20))
    ∧ ((alookup "inc_b" (decay_confidences mgrC5 7 1).graph.incidents).map
        (fun i => i.confidence) = some (3 / 2)
      ∧ incNeg.confidence = 1 / 2
      ∧ ¬ ((3 : ℚ) / 2 ≤ 1 / 2)) := by
  constructor
  · refine ⟨?_, rfl, by norm_num⟩
    have ha : alookup "inc_a" (decay_confidences mgrC5 7 1).graph.incidents
        = some (decayNode 1 incLow) := rfl
    have hc : (decayNode 1 incLow).confidence = 1 / 10 := by
      simp only [decayNode, incLow]
      rw [max_def]
      norm_num
    rw [ha]
    simp [hc]
  · refine ⟨?_, rfl, by norm_num⟩
    have hb : alookup "inc_b" (decay_confidences mgrC5 7 1).graph.incidents
        = some (decayNode 1 incNeg) := rfl
    have hc : (decayNode 1 incNeg).confidence = 3 / 2 := by
      simp only [decayNode, incNeg]
      rw [max_def]
      norm_num
    rw [hb]
    simp [hc]

/-- C5 (amended): `decay_confidences(t)` rewrites each incident through
`decayNode t`: an `active` incident's confidence becomes
`max(0.1, confidence − decay_rate · t)` (so it never ends below `0.1`) and
a non-active incident is untouched; the update is non-increasing provided
the incident's confidence is at least `0.1` and its decay rate is
non-negative (the counterexample shows both provisos are necessary). -/
theorem decay_confidences_spec (m : Manager) (now : Nat) (t : ℚ) (ht : 0 ≤ t)
    (iid : String) :
    (alookup iid (decay_confidences m now t).graph.incidents
      = (alookup iid m.graph.incidents).map (decayNode t))
    ∧ (∀ i : IncidentNode, i.status = .active →
        (decayNode t i).confidence = max (1 / 10) (i.confidence - i.decay_rate * t))
    ∧ (∀ i : IncidentNode, i.status = .active → 1 / 10 ≤ (decayNode t i).confidence)
    ∧ (∀ i : IncidentNode, ¬ i.status = .active → decayNode t i = i)
    ∧ (∀ i : IncidentNode, 0 ≤ i.decay_rate → 1 / 10 ≤ i.confidence →
        (decayNode t i).confidence ≤ i.confidence) := by
  refine ⟨?_, ?_, ?_, ?_, ?_⟩
  · show alookup iid (m.graph.incidents.map (fun p => (p.1, decayNode t p.2)))
      = (alookup iid m.graph.incidents).map (decayNode t)
    induction m.graph.incidents with
    | nil => rfl
    | cons p rest ih =>
      obtain ⟨k₀, v₀⟩ := p
      by_cases h0 : k₀ = iid <;> simp [alookup, h0, ih]
  · intro i hi
    simp [decayNode, hi]
  · intro i hi
    simp [decayNode, hi]
  · intro i hi
    simp [decayNode, hi]
  · intro i hrate hconf
    by_cases hi : i.status = .active
    · have hdecay : 0 ≤ i.decay_rate * t := mul_nonneg hrate ht
      simp only [decayNode, hi, if_pos]
      rw [max_le_iff]
      constructor
      · exact hconf
      · linarith
    · simp [decayNode, hi]

/-- Witness for the amended C5 theorem at a concrete state. -/
theorem decay_confidences_spec_witness :
    alookup "inc_a" (decay_confidences mgrC5 7 5).graph.incidents
      = (alookup "inc_a" mgrC5.graph.incidents).map (decayNode 5) :=
  (decay_confidences_spec mgrC5 7 5 (by norm_num) "inc_a").1

-- ===== C9: _parse_urgency =====
theorem isPre_iff (n : List Char) : ∀ h : List Char, isPre n h = true ↔ ∃ t, h = n ++ t := by
  induction n with
  | nil =>
    intro h
    simp [isPre]
  | cons b bs ih =>
    intro h
    cases h with
    | nil =>
      simp [isPre]
    | cons a as_ =>
      simp only [isPre, Bool.and_eq_true, decide_eq_true_eq, ih, List.cons_append,
        List.cons.injEq]
      constructor
      · rintro ⟨rfl, t, rfl⟩
        exact ⟨t, rfl, rfl⟩
      · rintro ⟨t, rfl, rfl⟩
        exact ⟨rfl, t, rfl⟩

theorem hasSubstr_iff (n : List Char) : ∀ h : List Char,
    hasSubstr n h = true ↔ ∃ a b, h = a ++ n ++ b := by
  intro h
  induction h with
  | nil =>
    simp only [hasSubstr, isPre_iff]
    constructor
    · rintro ⟨t, ht⟩
      rcases List.append_eq_nil.mp ht.symm with ⟨rfl, rfl⟩
      exact ⟨[], [], rfl⟩
    · rintro ⟨a, b, hab⟩
      have h1 := List.append_eq_nil.mp hab.symm
      rcases List.append_eq_nil.mp h1.1 with ⟨rfl, rfl⟩
      exact ⟨[], rfl⟩
  | cons c t ih =>
    simp only [hasSubstr, Bool.or_eq_true, isPre_iff, ih]
    constructor
    · rintro (⟨r, hr⟩ | ⟨a, b, hab⟩)
      · exact ⟨[], r, by simp [hr]⟩
      · exact ⟨c :: a, b, by simp [hab]⟩
    · rintro ⟨a, b, hab⟩
      cases a with
      | nil =>
        exact Or.inl ⟨b, by simpa using hab⟩
      | cons x xs =>
        right
        have h3 : t = xs ++ n ++ b := by simpa using congrArg List.tail hab
        exact ⟨xs, b, h3⟩

/-- C9: `_parse_urgency` lowercases its input and returns the first of
`critical`, `high`, `medium`, `low` (in that fixed order) contained in the
result — where containment (`ContainsSub`) provably means a contiguous
substring decomposition exists; if none occurs it defaults to `high`.  A
string containing several levels therefore maps to the earliest one in
that order. -/
theorem parse_urgency_first_match (raw : String) :
    (∀ needle hay : List Char, ContainsSub needle hay ↔ ∃ a b, hay = a ++ needle ++ b)
    ∧ parse_urgency raw =
      (if ContainsSub "critical".data (raw.data.map Char.toLower) then .critical
       else if ContainsSub "high".data (raw.data.map Char.toLower) then .high
       else if ContainsSub "medium".data (raw.data.map Char.toLower) then .medium
       else if ContainsSub "low".data (raw.data.map Char.toLower) then .low
       else .high) :=
  ⟨fun needle hay => hasSubstr_iff needle hay, rfl⟩

-- ===== C10: update_incident / update_resource =====
theorem getFI_applyIncidentUpd_ne (i : IncidentNode) (u : IncidentUpd) (f : IField)
    (h : u.target ≠ some f) : getFI (applyIncidentUpd i u) f = getFI i f := by
  cases u <;> cases f <;> first | rfl | exact absurd rfl h

theorem getFI_foldl_ne (ups : List IncidentUpd) (f : IField) :
    ∀ i : IncidentNode, (∀ u ∈ ups, u.target ≠ some f) →
      getFI (ups.foldl applyIncidentUpd i) f = getFI i f := by
  induction ups with
  | nil => intro i _; rfl
  | cons u rest ih =>
    intro i h
    rw [List.foldl_cons, ih _ (fun u' hu' => h u' (List.mem_cons_of_mem _ hu'))]
    exact getFI_applyIncidentUpd_ne i u f (h u (List.mem_cons_self _ _))

theorem foldl_applyIncidentUpd_filter (ups : List IncidentUpd) :
    ∀ i : IncidentNode,
      ups.foldl applyIncidentUpd i
        = (ups.filter IncidentUpd.isKnown).foldl applyIncidentUpd i := by
  induction ups with
  | nil => intro i; rfl
  | cons u rest ih =>
    intro i
    by_cases hk : IncidentUpd.isKnown u
    · rw [List.foldl_cons, List.filter_cons_of_pos hk, List.foldl_cons, ih]
    · cases u <;> try exact absurd rfl hk
      rw [List.foldl_cons, List.filter_cons_of_neg hk]
      exact ih i

theorem getFR_applyResourceUpd_ne (r : ResourceNode) (u : ResourceUpd) (f : RField)
    (h : u.target ≠ some f) : getFR (applyResourceUpd r u) f = getFR r f := by
  cases u <;> cases f <;> first | rfl | exact absurd rfl h

theorem getFR_foldl_ne (ups : List ResourceUpd) (f : RField) :
    ∀ r : ResourceNode, (∀ u ∈ ups, u.target ≠ some f) →
      getFR (ups.foldl applyResourceUpd r) f = getFR r f := by
  induction ups with
  | nil => intro r _; rfl
  | cons u rest ih =>
    intro r h
    rw [List.foldl_cons, ih _ (fun u' hu' => h u' (List.mem_cons_of_mem _ hu'))]
    exact getFR_applyResourceUpd_ne r u f (h u (List.mem_cons_self _ _))

theorem foldl_applyResourceUpd_filter (ups : List ResourceUpd) :
    ∀ r : ResourceNode,
      ups.foldl applyResourceUpd r
        = (ups.filter ResourceUpd.isKnown).foldl applyResourceUpd r := by
  induction ups with
  | nil => intro r; rfl
  | cons u rest ih =>
    intro r
    by_cases hk : ResourceUpd.isKnown u
    · rw [List.foldl_cons, List.filter_cons_of_pos hk, List.foldl_cons, ih]
    · cases u <;> try exact absurd rfl hk
      rw [List.foldl_cons, List.filter_cons_of_neg hk]
      exact ih r

/-- C10: `update_incident` / `update_resource` apply exactly the update
entries that name an existing attribute (unknown keys are silently
discarded), leave every attribute not named by an applied entry unchanged
except `updated_at` (stamped to `now`) with `last_updated` bumped on the
graph, touch no other entry or collection, and return `none` leaving the
manager unchanged when the id is absent. -/
theorem update_incident_resource_frame (m : Manager) (now : Nat)
    (incident_id resource_id : String)
    (iups : List IncidentUpd) (rups : List ResourceUpd) :
    (alookup incident_id m.graph.incidents = none →
      update_incident m now incident_id iups = (none, m))
    ∧ (∀ i, alookup incident_id m.graph.incidents = some i →
        update_incident m now incident_id iups
            = update_incident m now incident_id (iups.filter IncidentUpd.isKnown)
        ∧ (update_incident m now incident_id iups).1
            = some { iups.foldl applyIncidentUpd i with updated_at := now }
        ∧ (∀ f : IField, f ≠ .fUpdatedAt → (∀ u ∈ iups, u.target ≠ some f) →
            (update_incident m now incident_id iups).1.map (fun j => getFI j f)
              = some (getFI i f))
        ∧ (update_incident m now incident_id iups).1.map (fun j => j.updated_at)
            = some now
        ∧ alookup incident_id
              (update_incident m now incident_id iups).2.graph.incidents
            = (update_incident m now incident_id iups).1
        ∧ (∀ k, k ≠ incident_id →
            alookup k (update_incident m now incident_id iups).2.graph.incidents
              = alookup k m.graph.incidents)
        ∧ (update_incident m now incident_id iups).2.graph.resources
            = m.graph.resources
        ∧ (update_incident m now incident_id iups).2.graph.contradictions
            = m.graph.contradictions
        ∧ (update_incident m now incident_id iups).2.graph.pending_actions
            = m.graph.pending_actions
        ∧ (update_incident m now incident_id iups).2.graph.last_updated = now)
    ∧ (alookup resource_id m.graph.resources = none →
      update_resource m now resource_id rups = (none, m))
    ∧ (∀ r, alookup resource_id m.graph.resources = some r →
        update_resource m now resource_id rups
            = update_resource m now resource_id (rups.filter ResourceUpd.isKnown)
        ∧ (update_resource m now resource_id rups).1
            = some { rups.foldl applyResourceUpd r with updated_at := now }
        ∧ (∀ f : RField, f ≠ .fUpdatedAt → (∀ u ∈ rups, u.target ≠ some f) →
            (update_resource m now resource_id rups).1.map (fun j => getFR j f)
              = some (getFR r f))
        ∧ (update_resource m now resource_id rups).1.map (fun j => j.updated_at)
            = some now
        ∧ alookup resource_id
              (update_resource m now resource_id rups).2.graph.resources
            = (update_resource m now resource_id rups).1
        ∧ (∀ k, k ≠ resource_id →
            alookup k (update_resource m now resource_id rups).2.graph.resources
              = alookup k m.graph.resources)
        ∧ (update_resource m now resource_id rups).2.graph.incidents
            = m.graph.incidents
        ∧ (update_resource m now resource_id rups).2.graph.last_updated = now) := by
  refine ⟨?_, ?_, ?_, ?_⟩
  · intro h
    unfold update_incident
    rw [h]
  · intro i h
    have hrw : update_incident m now incident_id iups
        = (some { iups.foldl applyIncidentUpd i with updated_at := now },
           log_event { m with graph := { m.graph with
             incidents := alistUpdate incident_id
               (fun _ => { iups.foldl applyIncidentUpd i with updated_at := now })
               m.graph.incidents
             last_updated := now } } now "incident_updated") := by
      unfold update_incident
      rw [h]
    have hrw2 : update_incident m now incident_id (iups.filter IncidentUpd.isKnown)
        = (some { (iups.filter IncidentUpd.isKnown).foldl applyIncidentUpd i with
              updated_at := now },
           log_event { m with graph := { m.graph with
             incidents := alistUpdate incident_id
               (fun _ => { (iups.filter IncidentUpd.isKnown).foldl applyIncidentUpd i with
                 updated_at := now })
               m.graph.incidents
             last_updated := now } } now "incident_updated") := by
      unfold update_incident
      rw [h]
    refine ⟨?_, ?_, ?_, ?_, ?_, ?_, ?_, ?_, ?_, ?_⟩
    · rw [hrw, hrw2, foldl_applyIncidentUpd_filter iups i]
    · rw [hrw]
    · intro f hne hforall
      rw [hrw]
      have h1 : getFI (iups.foldl applyIncidentUpd i) f = getFI i f :=
        getFI_foldl_ne iups f i hforall
      have h2 : getFI { iups.foldl applyIncidentUpd i with updated_at := now } f
          = getFI (iups.foldl applyIncidentUpd i) f := by
        cases f <;> first | rfl | exact absurd rfl hne
      simp [h2, h1]
    · rw [hrw]
      rfl
    · rw [hrw]
      simp [log_event, alookup_alistUpdate_self, h]
    · intro k hk
      rw [hrw]
      simp [log_event, alookup_alistUpdate_ne _ _ hk]
    · rw [hrw]
      rfl
    · rw [hrw]
      rfl
    · rw [hrw]
      rfl
    · rw [hrw]
      rfl
  · intro h
    unfold update_resource
    rw [h]
  · intro r h
    have hrw : update_resource m now resource_id rups
        = (some { rups.foldl applyResourceUpd r with updated_at := now },
           { m with graph := { m.graph with
             resources := alistUpdate resource_id
               (fun _ => { rups.foldl applyResourceUpd r with updated_at := now })
               m.graph.resources
             last_updated := now } }) := by
      unfold update_resource
      rw [h]
    have hrw2 : update_resource m now resource_id (rups.filter ResourceUpd.isKnown)
        = (some { (rups.filter ResourceUpd.isKnown).foldl applyResourceUpd r with
              updated_at := now },
           { m with graph := { m.graph with
             resources := alistUpdate resource_id
               (fun _ => { (rups.filter ResourceUpd.isKnown).foldl applyResourceUpd r with
                 updated_at := now })
               m.graph.resources
             last_updated := now } }) := by
      unfold update_resource
      rw [h]
    refine ⟨?_, ?_, ?_, ?_, ?_, ?_, ?_, ?_⟩
    · rw [hrw, hrw2, foldl_applyResourceUpd_filter rups r]
    · rw [hrw]
    · intro f hne hforall
      rw [hrw]
      have h1 : getFR (rups.foldl applyResourceUpd r) f = getFR r f :=
        getFR_foldl_ne rups f r hforall
      have h2 : getFR { rups.foldl applyResourceUpd r with updated_at := now } f
          = getFR (rups.foldl applyResourceUpd r) f := by
        cases f <;> first | rfl | exact absurd rfl hne
      simp [h2, h1]
    · rw [hrw]
      rfl
    · rw [hrw]
      simp [alookup_alistUpdate_self, h]
    · intro k hk
      rw [hrw]
      simp [alookup_alistUpdate_ne _ _ hk]
    · rw [hrw]
    · rw [hrw]

-- ===== dispatch-loop lemmas (approve_action) =====
theorem alookup_mem {α : Type} {k : String} {v : α} :
    ∀ {l : AList α}, alookup k l = some v → (k, v) ∈ l := by
  intro l
  induction l with
  | nil => intro h; simp [alookup] at h
  | cons p rest ih =>
    intro h
    obtain ⟨k₀, v₀⟩ := p
    by_cases h0 : k₀ = k
    · subst h0
      rw [alookup, if_pos rfl] at h
      simp only [Option.some.injEq] at h
      subst h
      exact List.mem_cons_self _ _
    · rw [alookup, if_neg h0] at h
      exact List.mem_cons_of_mem _ (ih h)

theorem approveIncidentUpd_eq (a : ActionRecommendation) (now : Nat)
    (l : AList IncidentNode) {tid : String} (htid : a.target_incident_id = some tid)
    (hne : tid ≠ "") (hsome : (alookup tid l).isSome) :
    approveIncidentUpd a now l = alistUpdate tid (fun inc =>
      { inc with
        status := .responding
        assigned_resources := inc.assigned_resources ++ a.resources_to_allocate
        updated_at := now }) l := by
  unfold approveIncidentUpd
  split
  · rename_i heq
    simp [heq] at htid
  · rename_i tid' heq
    rw [heq] at htid
    injection htid with h'
    subst h'
    rw [if_neg hne, if_pos hsome]

theorem unassignIncidents_eq (resource_id : String) {iid : String} (hne : iid ≠ "")
    (l : AList IncidentNode) (hsome : (alookup iid l).isSome) :
    unassignIncidents resource_id (some iid) l = alistUpdate iid (fun inc =>
      if resource_id ∈ inc.assigned_resources then
        { inc with assigned_resources := inc.assigned_resources.erase resource_id }
      else inc) l := by
  unfold unassignIncidents
  show (if iid = "" then l
    else if (alookup iid l).isSome then
      alistUpdate iid (fun inc =>
        if resource_id ∈ inc.assigned_resources then
          { inc with assigned_resources := inc.assigned_resources.erase resource_id }
        else inc) l
    else l) = _
  rw [if_neg hne, if_pos hsome]

theorem alookup_dispatchStep_ne (a : ActionRecommendation) (now : Nat)
    (acc : AList ResourceNode) {rid r' : String} (h : rid ≠ r') :
    alookup rid (dispatchStep a now acc r') = alookup rid acc := by
  unfold dispatchStep
  by_cases hh : (alookup r' acc).isSome
  · simp only [hh, if_true]
    exact alookup_alistUpdate_ne _ _ h
  · simp [hh]

theorem alookup_foldl_dispatchStep_not_mem (a : ActionRecommendation) (now : Nat)
    (rid : String) :
    ∀ (rids : List String) (l : AList ResourceNode), rid ∉ rids →
      alookup rid (rids.foldl (dispatchStep a now) l) = alookup rid l := by
  intro rids
  induction rids with
  | nil => intro l _; rfl
  | cons x xs ih =>
    intro l h
    have hne : rid ≠ x := fun hh => h (hh ▸ List.mem_cons_self _ _)
    rw [List.foldl_cons, ih _ (fun hh => h (List.mem_cons_of_mem _ hh)),
      alookup_dispatchStep_ne a now l hne]

theorem dispatchUpd_idem (a : ActionRecommendation) (now : Nat) (r : ResourceNode) :
    dispatchUpd a now (dispatchUpd a now r) = dispatchUpd a now r := by
  cases h : a.target_location <;> simp [dispatchUpd, h]

theorem alookup_foldl_dispatchStep_mem (a : ActionRecommendation) (now : Nat)
    (rid : String) :
    ∀ (rids : List String) (l : AList ResourceNode) (r : ResourceNode),
      rid ∈ rids → alookup rid l = some r →
      alookup rid (rids.foldl (dispatchStep a now) l) = some (dispatchUpd a now r) := by
  intro rids
  induction rids with
  | nil =>
    intro l r h
    simp at h
  | cons x xs ih =>
    intro l r hmem hl
    rw [List.foldl_cons]
    by_cases hx : x = rid
    · subst hx
      have hsome : (alookup x l).isSome := by simp [hl]
      have hstep : alookup x (dispatchStep a now l x) = some (dispatchUpd a now r) := by
        unfold dispatchStep
        rw [if_pos hsome, alookup_alistUpdate_self, hl]
        rfl
      by_cases hxs : x ∈ xs
      · rw [ih _ _ hxs hstep, dispatchUpd_idem]
      · rw [alookup_foldl_dispatchStep_not_mem a now x xs _ hxs, hstep]
    · have hmem' : rid ∈ xs := by
        rcases List.mem_cons.mp hmem with h | h
        · exact absurd h.symm hx
        · exact h
      have hl' : alookup rid (dispatchStep a now l x) = some r := by
        rw [alookup_dispatchStep_ne a now l (fun hh => hx hh.symm)]
        exact hl
      exact ih _ _ hmem' hl'

theorem mem_foldl_dispatchStep (a : ActionRecommendation) (now : Nat) :
    ∀ (rids : List String) (l : AList ResourceNode) (x : String × ResourceNode),
      x ∈ rids.foldl (dispatchStep a now) l →
      x ∈ l ∨ ∃ v : ResourceNode, x.2 = dispatchUpd a now v := by
  intro rids
  induction rids with
  | nil => intro l x hx; exact Or.inl hx
  | cons y ys ih =>
    intro l x hx
    rw [List.foldl_cons] at hx
    rcases ih _ _ hx with h | h
    · unfold dispatchStep at h
      by_cases hy : (alookup y l).isSome
      · rw [if_pos hy] at h
        rcases mem_alistUpdate h with h' | ⟨v, _, hxv⟩
        · exact Or.inl h'
        · exact Or.inr ⟨v, by rw [hxv]⟩
      · rw [if_neg hy] at h
        exact Or.inl h
    · exact Or.inr h

/-- Witness for C10 at a concrete state: an update mixing one known and one
unknown key. -/
theorem update_incident_resource_frame_witness :
    (update_incident mgrC5 9 "inc_a" [.setStatus .responding, .unknownKey "bogus"]).1
      = some { [IncidentUpd.setStatus .responding,
                IncidentUpd.unknownKey "bogus"].foldl applyIncidentUpd incLow with
          updated_at := 9 } :=
  ((update_incident_resource_frame mgrC5 9 "inc_a" "r" [.setStatus .responding,
      .unknownKey "bogus"] []).2.1 incLow rfl).2.1

/-- C1 counterexample: approving `a1` extends `i1.assigned_resources` with
`r1` although it is already listed — the list becomes `["r1", "r1"]`, so a
resource id does appear twice (no dedup); and with a null target location
the resource's destination keeps its old value `loc1` rather than being set
to the action's target location. -/
theorem approve_action_no_dedup :
    incC1.assigned_resources = ["r1"]
    ∧ ((alookup "i1" (approve_action mgrC1 5 "a1" "operator").2.graph.incidents).map
        (fun i => i.assigned_resources) = some ["r1", "r1"])
    ∧ actC1.target_location = none
    ∧ ((alookup "r1" (approve_action mgrC1 5 "a1" "operator").2.graph.resources).map
        (fun r => r.destination) = some (some loc1)) := by
  exact ⟨rfl, rfl, rfl, rfl⟩

/-- C1 (amended): approving a pending action id stamps the action
(`approved`, `decided_at`, `decided_by`); every listed resource id that
exists in the resource map is updated by `dispatchUpd`: status
`dispatched`, `assigned_incident := target_incident_id`,
`eta_minutes := 8`, and `destination := target_location` only when the
action carries a target location — otherwise the old destination is kept;
unlisted resources are untouched; and when the target incident id is
non-null, non-empty and present, that incident's status becomes
`responding` and the listed ids are appended to `assigned_resources` by a
plain extend, without deduplication. -/
theorem approve_action_spec (m : Manager) (now : Nat) (action_id decider : String)
    (a : ActionRecommendation)
    (h : alookup action_id m.graph.pending_actions = some a) :
    (approve_action m now action_id decider).1
        = some { a with
            status := .approved
            decided_at := some now
            decided_by := some decider }
    ∧ (∀ r : ResourceNode, dispatchUpd a now r
        = { r with
            status := .dispatched
            assigned_incident := a.target_incident_id
            eta_minutes := some 8
            updated_at := now
            destination := match a.target_location with
              | some l => some l
              | none => r.destination })
    ∧ (∀ rid ∈ a.resources_to_allocate, ∀ r : ResourceNode,
        alookup rid m.graph.resources = some r →
        alookup rid (approve_action m now action_id decider).2.graph.resources
          = some (dispatchUpd a now r))
    ∧ (∀ rid : String, rid ∉ a.resources_to_allocate →
        alookup rid (approve_action m now action_id decider).2.graph.resources
          = alookup rid m.graph.resources)
    ∧ (∀ tid, a.target_incident_id = some tid → tid ≠ "" →
        ∀ inc : IncidentNode, alookup tid m.graph.incidents = some inc →
        alookup tid (approve_action m now action_id decider).2.graph.incidents
          = some { inc with
              status := .responding
              assigned_resources := inc.assigned_resources ++ a.resources_to_allocate
              updated_at := now }) := by
  have hrw : approve_action m now action_id decider
      = (some { a with
            status := .approved
            decided_at := some now
            decided_by := some decider },
         log_event { m with graph := { m.graph with
            pending_actions := alistUpdate action_id
              (fun _ => { a with
                status := .approved
                decided_at := some now
                decided_by := some decider })
              m.graph.pending_actions
            last_updated := now
            resources := dispatchResources a now m.graph.resources
            incidents := approveIncidentUpd a now m.graph.incidents } }
          now "action_approved") := by
    unfold approve_action
    rw [h]
  refine ⟨?_, ?_, ?_, ?_, ?_⟩
  · rw [hrw]
  · intro r
    rfl
  · intro rid hrid r hr
    rw [hrw]
    exact alookup_foldl_dispatchStep_mem a now rid _ _ r hrid hr
  · intro rid hrid
    rw [hrw]
    exact alookup_foldl_dispatchStep_not_mem a now rid _ _ hrid
  · intro tid htid hne inc hinc
    rw [hrw]
    show alookup tid (approveIncidentUpd a now m.graph.incidents) = _
    rw [approveIncidentUpd_eq a now m.graph.incidents htid hne (by simp [hinc]),
      alookup_alistUpdate_self, hinc]
    rfl

/-- Witness for the amended C1 theorem at the concrete state. -/
theorem approve_action_spec_witness :
    (approve_action mgrC1 5 "a1" "operator").1
      = some { actC1 with
          status := .approved
          decided_at := some 5
          decided_by := some "operator" } :=
  (approve_action_spec mgrC1 5 "a1" "operator" actC1 rfl).1

theorem applyOp_preserves (m : Manager) (op : MutOp)
    (hres : ResourceInvariant m.graph) (hact : ActionsTargeted m.graph) :
    ResourceInvariant (applyOp m op).graph ∧ ActionsTargeted (applyOp m op).graph := by
  cases op with
  | approve now action_id decided_by =>
    show ResourceInvariant (approve_action m now action_id decided_by).2.graph
      ∧ ActionsTargeted (approve_action m now action_id decided_by).2.graph
    cases h : alookup action_id m.graph.pending_actions with
    | none =>
      have hid : (approve_action m now action_id decided_by).2 = m := by
        unfold approve_action
        rw [h]
      rw [hid]
      exact ⟨hres, hact⟩
    | some a =>
      have hrw : (approve_action m now action_id decided_by).2
          = log_event { m with graph := { m.graph with
              pending_actions := alistUpdate action_id
                (fun _ => { a with
                  status := .approved
                  decided_at := some now
                  decided_by := some decided_by })
                m.graph.pending_actions
              last_updated := now
              resources := dispatchResources a now m.graph.resources
              incidents := approveIncidentUpd a now m.graph.incidents } }
            now "action_approved" := by
        unfold approve_action
        rw [h]
      rw [hrw]
      constructor
      · intro p hp
        rcases mem_foldl_dispatchStep a now _ _ p hp with hmem | ⟨v, hv⟩
        · exact hres p hmem
        · have hta : a.target_incident_id ≠ none ∧ a.target_location ≠ none :=
            hact (action_id, a) (alookup_mem h)
          rcases Option.ne_none_iff_exists'.mp hta.2 with ⟨l, hl⟩
          rw [hv]
          constructor
          · intro _
            exact ⟨hta.1, by simp [dispatchUpd, hl]⟩
          · intro habs
            simp [dispatchUpd] at habs
      · intro p hp
        rcases mem_alistUpdate hp with hmem | ⟨v, hv, hpv⟩
        · exact hact p hmem
        · rw [hpv]
          exact hact (action_id, a) (alookup_mem h)
  | assign now resource_id incident_id =>
    show ResourceInvariant (assign_resource_manual m now resource_id incident_id).2.graph
      ∧ ActionsTargeted (assign_resource_manual m now resource_id incident_id).2.graph
    cases hr : alookup resource_id m.graph.resources with
    | none =>
      have hid : (assign_resource_manual m now resource_id incident_id).2 = m := by
        unfold assign_resource_manual
        rw [hr]
      rw [hid]
      exact ⟨hres, hact⟩
    | some r =>
      cases hi : alookup incident_id m.graph.incidents with
      | none =>
        have hid : (assign_resource_manual m now resource_id incident_id).2 = m := by
          unfold assign_resource_manual
          rw [hr, hi]
        rw [hid]
        exact ⟨hres, hact⟩
      | some inc =>
        have hrw : (assign_resource_manual m now resource_id incident_id).2
            = log_event { m with graph := { m.graph with
                resources := alistUpdate resource_id
                  (fun _ => { r with
                    status := .dispatched
                    assigned_incident := some incident_id
                    destination := some inc.location
                    eta_minutes := some 8
                    updated_at := now })
                  m.graph.resources
                incidents := alistUpdate incident_id
                  (fun _ => { inc with
                    assigned_resources :=
                      if resource_id ∈ inc.assigned_resources then inc.assigned_resources
                      else inc.assigned_resources ++ [resource_id]
                    updated_at := now })
                  m.graph.incidents
                last_updated := now } }
              now "resource_assigned" := by
          unfold assign_resource_manual
          rw [hr, hi]
        rw [hrw]
        constructor
        · intro p hp
          rcases mem_alistUpdate hp with hmem | ⟨v, hv, hpv⟩
          · exact hres p hmem
          · rw [hpv]
            exact ⟨fun _ => ⟨by simp, by simp⟩, fun habs => by simp at habs⟩
        · intro p hp
          exact hact p hp
  | unassign now resource_id =>
    show ResourceInvariant (unassign_resource m now resource_id).2.graph
      ∧ ActionsTargeted (unassign_resource m now resource_id).2.graph
    cases hr : alookup resource_id m.graph.resources with
    | none =>
      have hid : (unassign_resource m now resource_id).2 = m := by
        unfold unassign_resource
        rw [hr]
      rw [hid]
      exact ⟨hres, hact⟩
    | some r =>
      have hrw : (unassign_resource m now resource_id).2
          = log_event { m with graph := { m.graph with
              resources := alistUpdate resource_id
                (fun _ => { r with
                  status := .available
                  assigned_incident := none
                  destination := none
                  eta_minutes := none
                  updated_at := now })
                m.graph.resources
              incidents := unassignIncidents resource_id r.assigned_incident
                m.graph.incidents
              last_updated := now } }
            now "resource_unassigned" := by
        unfold unassign_resource
        rw [hr]
      rw [hrw]
      constructor
      · intro p hp
        rcases mem_alistUpdate hp with hmem | ⟨v, hv, hpv⟩
        · exact hres p hmem
        · rw [hpv]
          exact ⟨fun habs => by simp at habs, fun _ => rfl⟩
      · intro p hp
        exact hact p hp

theorem applyOps_preserves (ops : List MutOp) :
    ∀ m : Manager, ResourceInvariant m.graph → ActionsTargeted m.graph →
      ResourceInvariant (applyOps m ops).graph ∧ ActionsTargeted (applyOps m ops).graph := by
  induction ops with
  | nil => exact fun m h1 h2 => ⟨h1, h2⟩
  | cons op rest ih =>
    intro m h1 h2
    have hstep := applyOp_preserves m op h1 h2
    show ResourceInvariant ((op :: rest).foldl applyOp m).graph ∧ _
    rw [List.foldl_cons]
    exact ih (applyOp m op) hstep.1 hstep.2

/-- C3 counterexample: the invariant holds before, but approving the
pending action `a1` — whose `target_incident_id` is null — dispatches `r1`
with `assigned_incident = null` and `destination = null`, violating
`dispatched ⇒ assigned_incident ≠ null ∧ destination ≠ null`. -/
theorem approve_action_breaks_resource_invariant :
    ResourceInvariant mgrC3.graph
    ∧ ¬ ResourceInvariant (applyOps mgrC3 [.approve 5 "a1" "operator"]).graph := by
  unfold ResourceInvariant
  constructor
  · decide
  · decide

/-- C3 (amended): provided every pending action carries a non-null target
incident id and a non-null target location, the resource invariant
(`dispatched ⇒ assigned_incident ≠ null ∧ destination ≠ null` and
`available ⇒ assigned_incident = null`) is preserved by every sequence of
`approve_action`, `assign_resource_manual` and `unassign_resource`
operations (the counterexample shows the proviso is necessary). -/
theorem resource_invariant_preserved (m : Manager) (ops : List MutOp)
    (hres : ResourceInvariant m.graph) (hact : ActionsTargeted m.graph) :
    ResourceInvariant (applyOps m ops).graph :=
  (applyOps_preserves ops m hres hact).1

/-- Witness for the amended C3 theorem at a concrete state and op sequence. -/
theorem resource_invariant_preserved_witness :
    ResourceInvariant (applyOps mgrC3w
      [.approve 5 "a2" "operator", .assign 6 "r1" "i1", .unassign 7 "r1"]).graph :=
  resource_invariant_preserved mgrC3w
    [.approve 5 "a2" "operator", .assign 6 "r1" "i1", .unassign 7 "r1"]
    (by unfold ResourceInvariant; decide) (by unfold ActionsTargeted; decide)

/-- C7 counterexample: the resource starts with `eta_minutes = 3`; after
manual assign followed by unassign its `eta_minutes` is null — the pair of
calls clears the field instead of restoring it, so the round trip is not
the identity even ignoring `updated_at` and the audit log. -/
theorem assign_unassign_not_roundtrip :
    resC7.eta_minutes = some 3
    ∧ ((alookup "r1" (unassign_resource
          (assign_resource_manual mgrC7 1 "r1" "i1").2 2 "r1").2.graph.resources).map
        (fun r => r.eta_minutes) = some none) :=
  ⟨rfl, rfl⟩

/-- C7 (amended): when the resource starts in the clean available state
(status `available`, null `assigned_incident`, `destination` and
`eta_minutes`) and is not yet listed in the incident's
`assigned_resources`, and the incident id is non-empty, manual assign
followed by unassign restores both nodes exactly, up to their `updated_at`
stamps and the audit log (the counterexample shows the clean-state proviso
is necessary). -/
theorem assign_unassign_roundtrip (m : Manager) (t1 t2 : Nat) (rid iid : String)
    (r : ResourceNode) (inc : IncidentNode)
    (hr : alookup rid m.graph.resources = some r)
    (hi : alookup iid m.graph.incidents = some inc)
    (hiid : iid ≠ "")
    (hstat : r.status = .available) (hassig : r.assigned_incident = none)
    (hdest : r.destination = none) (heta : r.eta_minutes = none)
    (hmem : rid ∉ inc.assigned_resources) :
    alookup rid (unassign_resource
        (assign_resource_manual m t1 rid iid).2 t2 rid).2.graph.resources
      = some { r with updated_at := t2 }
    ∧ alookup iid (unassign_resource
        (assign_resource_manual m t1 rid iid).2 t2 rid).2.graph.incidents
      = some { inc with updated_at := t1 } := by
  have hrw1 : assign_resource_manual m t1 rid iid
      = (some { r with
            status := .dispatched
            assigned_incident := some iid
            destination := some inc.location
            eta_minutes := some 8
            updated_at := t1 },
         log_event { m with graph := { m.graph with
            resources := alistUpdate rid
              (fun _ => { r with
                status := .dispatched
                assigned_incident := some iid
                destination := some inc.location
                eta_minutes := some 8
                updated_at := t1 })
              m.graph.resources
            incidents := alistUpdate iid
              (fun _ => { inc with
                assigned_resources :=
                  if rid ∈ inc.assigned_resources then inc.assigned_resources
                  else inc.assigned_resources ++ [rid]
                updated_at := t1 })
              m.graph.incidents
            last_updated := t1 } }
          t1 "resource_assigned") := by
    unfold assign_resource_manual
    rw [hr, hi]
  rw [if_neg hmem] at hrw1
  have hr1 : alookup rid (assign_resource_manual m t1 rid iid).2.graph.resources
      = some { r with
          status := .dispatched
          assigned_incident := some iid
          destination := some inc.location
          eta_minutes := some 8
          updated_at := t1 } := by
    rw [hrw1]
    show alookup rid (alistUpdate rid _ m.graph.resources) = _
    rw [alookup_alistUpdate_self, hr]
    rfl
  have hi1 : alookup iid (assign_resource_manual m t1 rid iid).2.graph.incidents
      = some { inc with
          assigned_resources := inc.assigned_resources ++ [rid]
          updated_at := t1 } := by
    rw [hrw1]
    show alookup iid (alistUpdate iid _ m.graph.incidents) = _
    rw [alookup_alistUpdate_self, hi]
    rfl
  have hrw2 : unassign_resource (assign_resource_manual m t1 rid iid).2 t2 rid
      = (some { r with
            status := .available
            assigned_incident := none
            destination := none
            eta_minutes := none
            updated_at := t2 },
         log_event { (assign_resource_manual m t1 rid iid).2 with graph :=
            { (assign_resource_manual m t1 rid iid).2.graph with
              resources := alistUpdate rid
                (fun _ => { r with
                  status := .available
                  assigned_incident := none
                  destination := none
                  eta_minutes := none
                  updated_at := t2 })
                (assign_resource_manual m t1 rid iid).2.graph.resources
              incidents := unassignIncidents rid (some iid)
                (assign_resource_manual m t1 rid iid).2.graph.incidents
              last_updated := t2 } }
          t2 "resource_unassigned") := by
    unfold unassign_resource
    rw [hr1]
  refine ⟨?_, ?_⟩
  · rw [hrw2]
    show alookup rid (alistUpdate rid _ _) = _
    rw [alookup_alistUpdate_self, hr1]
    show some _ = _
    obtain ⟨f1, f2, f3, f4, f5, f6, f7, f8, f9⟩ := r
    dsimp only at hstat hassig hdest heta
    subst hstat hassig hdest heta
    rfl
  · rw [hrw2]
    have hsome1 : (alookup iid
        (assign_resource_manual m t1 rid iid).2.graph.incidents).isSome := by
      rw [hi1]
      rfl
    show alookup iid (unassignIncidents rid (some iid) _) = _
    rw [unassignIncidents_eq rid hiid _ hsome1, alookup_alistUpdate_self, hi1]
    have hmem1 : rid ∈ inc.assigned_resources ++ [rid] := by simp
    show some (if rid ∈ inc.assigned_resources ++ [rid] then _ else _) = _
    rw [if_pos hmem1]
    have herase : (inc.assigned_resources ++ [rid]).erase rid = inc.assigned_resources := by
      rw [List.erase_append_right _ hmem]
      simp
    show some { inc with
      assigned_resources := (inc.assigned_resources ++ [rid]).erase rid
      updated_at := t1 } = _
    rw [herase]

/-- Witness for the amended C7 theorem at a concrete state. -/
theorem assign_unassign_roundtrip_witness :
    alookup "r1" (unassign_resource
        (assign_resource_manual mgrC7w 1 "r1" "i1").2 2 "r1").2.graph.resources
      = some { resAvail with updated_at := 2 }
    ∧ alookup "i1" (unassign_resource
        (assign_resource_manual mgrC7w 1 "r1" "i1").2 2 "r1").2.graph.incidents
      = some { incPlain with updated_at := 1 } :=
  assign_unassign_roundtrip mgrC7w 1 2 "r1" "i1" resAvail incPlain rfl rfl
    (by decide) rfl rfl rfl rfl (by decide)

-- ===== C2: at most one unresolved detector alert per entity =====
theorem filter_length_mono {α : Type} (p q : α → Bool)
    (h : ∀ a, p a = true → q a = true) :
    ∀ l : List α, (l.filter p).length ≤ (l.filter q).length := by
  intro l
  induction l with
  | nil => exact Nat.le_refl 0
  | cons a t ih =>
    by_cases hp : p a = true
    · rw [List.filter_cons_of_pos hp, List.filter_cons_of_pos (h a hp)]
      exact Nat.succ_le_succ ih
    · rw [List.filter_cons_of_neg hp]
      by_cases hq : q a = true
      · rw [List.filter_cons_of_pos hq]
        exact Nat.le_trans ih (Nat.le_succ _)
      · rw [List.filter_cons_of_neg hq]
        exact ih

theorem detCountL_append (e : String) (l1 l2 : List AlertRec) :
    detCountL e (l1 ++ l2) = detCountL e l1 + detCountL e l2 := by
  unfold detCountL
  rw [List.filter_append, List.length_append]

theorem detCountL_single_det (e entity aid : String) :
    detCountL e [⟨aid, entity, false, true⟩] = if entity = e then 1 else 0 := by
  by_cases h : entity = e <;> simp [detCountL, List.filter, h]

theorem detCountL_single_inject (e entity aid : String) :
    detCountL e [⟨aid, entity, false, false⟩] = 0 := by
  simp [detCountL, List.filter]

theorem detCountL_resolveMap (e aid : String) (l : List AlertRec) :
    detCountL e (l.map (fun a => if a.id = aid then { a with resolved := true } else a))
      = detCountL e l := by
  unfold detCountL
  rw [List.filter_map, List.length_map]
  congr 1
  apply List.filter_congr
  intro a _
  by_cases h : a.id = aid <;> simp [h, Function.comp]

theorem checkLoop_preserves (oracle : String → VerOutcome) (alert_id : String) :
    ∀ (snap : List (String × List Claim)) (s : DetState), DetInv s →
      DetInv (checkLoop oracle alert_id snap s) := by
  intro snap
  induction snap with
  | nil => exact fun s h => h
  | cons p rest ih =>
    intro s h
    obtain ⟨entity, claims⟩ := p
    show DetInv (checkLoop oracle alert_id ((entity, claims) :: rest) s)
    rw [checkLoop]
    by_cases h1 : (alookup entity s.signal_claims).isNone = true
    · rw [if_pos h1]
      exact ih s h
    · rw [if_neg h1]
      by_cases h2 : entity ∈ s.handled
      · rw [if_pos h2]
        exact ih s h
      · rw [if_neg h2]
        by_cases h3 : 2 ≤ claims.length
        · rw [if_pos h3]
          split
          · exact ih _ h
          · rename_i v horacle
            by_cases h4 : v = "CONTRADICTION" ∨ v = "TEMPORAL_GAP"
            · rw [if_pos h4]
              intro e
              show detCountL e (s.alerts ++ [⟨alert_id, entity, false, true⟩]) ≤ 1
                ∧ (1 ≤ detCountL e (s.alerts ++ [⟨alert_id, entity, false, true⟩]) →
                    e ∈ entity :: s.handled)
              rw [detCountL_append, detCountL_single_det]
              by_cases he : entity = e
              · subst he
                have h0 : detCountL entity s.alerts = 0 := by
                  by_contra hne
                  exact h2 ((h entity).2 (Nat.one_le_iff_ne_zero.mpr hne))
                rw [h0, if_pos rfl]
                exact ⟨Nat.le_refl 1, fun _ => List.mem_cons_self _ _⟩
              · rw [if_neg he, Nat.add_zero]
                exact ⟨(h e).1, fun h1le => List.mem_cons_of_mem _ ((h e).2 h1le)⟩
            · rw [if_neg h4]
              exact ih s h
        · rw [if_neg h3]
          exact ih s h

theorem injectLite_preserves (s : DetState) (entity : String) (cs : List Claim)
    (ts alert_id : String) (fails : Bool) (h : DetInv s) :
    DetInv (injectLite s entity cs ts alert_id fails) := by
  unfold injectLite
  dsimp only
  by_cases h1 : 2 ≤ ((alookup entity s.signal_claims).getD [] ++
      cs.map (fun (c : Claim) => { c with timestamp := ts })).length
  · rw [if_pos h1]
    by_cases h2 : fails = true
    · rw [if_pos h2]
      exact h
    · rw [if_neg h2]
      intro e
      show detCountL e (s.alerts ++ [⟨alert_id, entity, false, false⟩]) ≤ 1
        ∧ (1 ≤ detCountL e (s.alerts ++ [⟨alert_id, entity, false, false⟩]) →
            e ∈ entity :: s.handled)
      rw [detCountL_append, detCountL_single_inject, Nat.add_zero]
      exact ⟨(h e).1, fun h1le => List.mem_cons_of_mem _ ((h e).2 h1le)⟩
  · rw [if_neg h1]
    exact h

theorem reach_DetInv (s : DetState) (hs : Reach s) : DetInv s := by
  induction hs with
  | init =>
    intro e
    exact ⟨Nat.zero_le 1, fun habs => absurd habs (by simp [detCountL])⟩
  | accum s' entity c hr ih =>
    unfold accumClaim
    split_ifs <;> exact ih
  | check s' oracle alert_id hr ih =>
    exact checkLoop_preserves oracle alert_id s'.signal_claims s' ih
  | inject s' entity cs ts alert_id fails hr ih =>
    exact injectLite_preserves s' entity cs ts alert_id fails ih
  | resolveStep s' alert_id hr ih =>
    intro e
    show detCountL e (resolveAlertRec s' alert_id).alerts ≤ 1
      ∧ (1 ≤ detCountL e (resolveAlertRec s' alert_id).alerts →
          e ∈ (resolveAlertRec s' alert_id).handled)
    have : detCountL e (resolveAlertRec s' alert_id).alerts = detCountL e s'.alerts :=
      detCountL_resolveMap e alert_id s'.alerts
    rw [this]
    exact ih e
  | reset s' hr =>
    intro e
    exact ⟨Nat.zero_le 1, fun habs => absurd habs (by simp [resetDet, detCountL])⟩

/-- C2: at every reachable coordinator state, for every entity name there
is at most one unresolved contradiction alert created by the signal-path
detector: the detector only fires for entities outside the handled set,
immediately adds the entity to that set, and nothing but a full reset ever
removes it. -/
theorem detector_at_most_one_unresolved (s : DetState) (hs : Reach s) (e : String) :
    unresolvedDetCount e s ≤ 1 := by
  have hmono : unresolvedDetCount e s ≤ detCount e s := by
    unfold unresolvedDetCount detCount detCountL
    apply filter_length_mono
    intro a ha
    simp only [Bool.and_eq_true] at ha
    simp [ha.1.1, ha.1.2]
  exact Nat.le_trans hmono ((reach_DetInv s hs) e).1

/-- Witness for C2 at a concrete reachable state: two claims accumulated
for one entity, then a detector pass that creates the alert. -/
theorem detector_at_most_one_unresolved_witness :
    unresolvedDetCount "Main Street Bridge"
      (check_contradictions oracleContra "alert_1"
        (accumClaim (accumClaim ⟨[], [], []⟩ "Main Street Bridge" claimA)
          "Main Street Bridge" claimB)) ≤ 1 :=
  detector_at_most_one_unresolved _
    (Reach.check _ oracleContra "alert_1"
      (Reach.accum _ "Main Street Bridge" claimB
        (Reach.accum _ "Main Street Bridge" claimA Reach.init)))
    "Main Street Bridge"

-- ===== C4: planning trigger cooldown =====
theorem maybe_fired_iff (now : ℚ) (g : SituationGraph) (c : PlanClock) (af : Bool) :
    (maybe_generate_recommendations now g c af).2 = true ↔
      cooldownOk now c = true ∧ criticalIncidentsExist g = true
        ∧ pendingCount g < 3 ∧ availableResourcesExist g = true := by
  unfold maybe_generate_recommendations
  split_ifs with h1 h2 h3 h4 <;> simp_all

theorem maybe_stamp (now : ℚ) (g : SituationGraph) (c : PlanClock) (af : Bool)
    (hf : (maybe_generate_recommendations now g c af).2 = true) :
    (maybe_generate_recommendations now g c af).1.last_planning_call = some now
    ∧ (maybe_generate_recommendations now g c af).1.planning_cooldown_seconds
        = c.planning_cooldown_seconds := by
  unfold maybe_generate_recommendations at hf ⊢
  split_ifs at hf ⊢ <;> simp_all

theorem maybe_not_fired_clock (now : ℚ) (g : SituationGraph) (c : PlanClock) (af : Bool)
    (hf : ¬ (maybe_generate_recommendations now g c af).2 = true) :
    (maybe_generate_recommendations now g c af).1 = c := by
  unfold maybe_generate_recommendations at hf ⊢
  split_ifs at hf ⊢ <;> simp_all

theorem maybe_clock_analyzer_independent (now : ℚ) (g : SituationGraph) (c : PlanClock)
    (af af' : Bool) :
    maybe_generate_recommendations now g c af
      = maybe_generate_recommendations now g c af' := by
  unfold maybe_generate_recommendations
  rfl

theorem firedTimes_cons (c : PlanClock) (t : ℚ) (g : SituationGraph) (af : Bool)
    (rest : List (ℚ × SituationGraph × Bool)) :
    firedTimes c ((t, g, af) :: rest)
      = (if (maybe_generate_recommendations t g c af).2 = true then [t] else [])
        ++ firedTimes (maybe_generate_recommendations t g c af).1 rest := by
  unfold firedTimes
  rw [runPlanning]
  by_cases hf : (maybe_generate_recommendations t g c af).2 = true <;> simp [hf]

theorem runPlanning_gap (cd : ℚ) (hcd : 0 ≤ cd) :
    ∀ (steps : List (ℚ × SituationGraph × Bool)) (c : PlanClock),
      c.planning_cooldown_seconds = cd →
      List.Chain' (· ≤ ·) (steps.map Prod.fst) →
      (∀ t0, c.last_planning_call = some t0 → ∀ s ∈ steps, t0 ≤ s.1) →
      List.Chain' (fun a b => a + cd ≤ b) (firedTimes c steps)
      ∧ (∀ tf ∈ firedTimes c steps, ∀ t0, c.last_planning_call = some t0 →
          t0 + cd ≤ tf) := by
  intro steps
  induction steps with
  | nil =>
    intro c _ _ _
    exact ⟨List.chain'_nil, by intro tf htf; simp [firedTimes, runPlanning] at htf⟩
  | cons sg rest ih =>
    intro c hc hmono hcompat
    obtain ⟨t, g, af⟩ := sg
    have hmono' : List.Chain' (· ≤ ·) (rest.map Prod.fst) := by
      rw [List.map_cons] at hmono
      exact hmono.tail
    have hpair : ∀ s ∈ rest, t ≤ s.1 := by
      intro s hs
      rw [List.map_cons] at hmono
      have hpw := (List.chain'_iff_pairwise.mp hmono)
      exact (List.pairwise_cons.mp hpw).1 s.1 (List.mem_map.mpr ⟨s, hs, rfl⟩)
    by_cases hf : (maybe_generate_recommendations t g c af).2 = true
    · have hstamp := maybe_stamp t g c af hf
      have hfiredTimes : firedTimes c ((t, g, af) :: rest)
          = t :: firedTimes (maybe_generate_recommendations t g c af).1 rest := by
        rw [firedTimes_cons, if_pos hf]
        rfl
      have hcompat' : ∀ t0,
          (maybe_generate_recommendations t g c af).1.last_planning_call = some t0 →
          ∀ s ∈ rest, t0 ≤ s.1 := by
        intro t0 h0 s hs
        rw [hstamp.1] at h0
        injection h0 with h0
        subst h0
        exact hpair s hs
      have ihres := ih (maybe_generate_recommendations t g c af).1
        (by rw [hstamp.2]; exact hc) hmono' hcompat'
      have ht0cd : ∀ t0, c.last_planning_call = some t0 → t0 + cd ≤ t := by
        intro t0 h0
        have hcool : cooldownOk t c = true := ((maybe_fired_iff t g c af).mp hf).1
        unfold cooldownOk at hcool
        rw [h0] at hcool
        simp only [Bool.not_eq_true', decide_eq_false_iff_not, not_lt] at hcool
        rw [hc] at hcool
        linarith
      rw [hfiredTimes]
      constructor
      · rw [List.chain'_cons']
        refine ⟨?_, ihres.1⟩
        intro b hb
        exact ihres.2 b (List.mem_of_mem_head? hb) t hstamp.1
      · intro tf htf t0 h0
        rcases List.mem_cons.mp htf with rfl | htf'
        · exact ht0cd t0 h0
        · have h1 : t + cd ≤ tf := ihres.2 tf htf' t hstamp.1
          have h2 : t0 + cd ≤ t := ht0cd t0 h0
          linarith
    · have hclock : (maybe_generate_recommendations t g c af).1 = c :=
        maybe_not_fired_clock t g c af hf
      have hfiredTimes : firedTimes c ((t, g, af) :: rest)
          = firedTimes (maybe_generate_recommendations t g c af).1 rest := by
        rw [firedTimes_cons, if_neg hf]
        rfl
      rw [hfiredTimes, hclock]
      exact ih c hc hmono' (fun t0 h0 s hs => hcompat t0 h0 s (List.mem_cons_of_mem _ hs))

theorem pairwise_gap_window (cd : ℚ) (l : List ℚ)
    (hp : List.Pairwise (fun a b => a + cd ≤ b) l) (t w : ℚ) (hw : w < cd) :
    (l.filter (fun x => decide (t ≤ x) && decide (x < t + w))).length ≤ 1 := by
  have hp' := hp.filter (fun x => decide (t ≤ x) && decide (x < t + w))
  rcases hfil : l.filter (fun x => decide (t ≤ x) && decide (x < t + w)) with _ | ⟨a, l2⟩
  · simp
  · rcases l2 with _ | ⟨b, rest⟩
    · simp
    · exfalso
      rw [hfil] at hp'
      have hab : a + cd ≤ b := (List.pairwise_cons.mp hp').1 b (List.mem_cons_self _ _)
      have hamem : a ∈ l.filter (fun x => decide (t ≤ x) && decide (x < t + w)) := by
        rw [hfil]
        exact List.mem_cons_self _ _
      have hbmem : b ∈ l.filter (fun x => decide (t ≤ x) && decide (x < t + w)) := by
        rw [hfil]
        exact List.mem_cons_of_mem _ (List.mem_cons_self _ _)
      have ha := (List.mem_filter.mp hamem).2
      have hb := (List.mem_filter.mp hbmem).2
      simp only [Bool.and_eq_true, decide_eq_true_eq] at ha hb
      linarith [ha.1, hb.2, hab]

/-- C4: the planning analyzer is invoked exactly when all four gates hold
(cooldown elapsed — or never stamped — some unassigned critical/high
active incident, fewer than 3 pending actions, an available resource); the
clock is stamped to the call time whenever the analyzer is invoked, with
both the stamp and the invocation independent of the analyzer's outcome
(stamped before the call); and along any time-monotone trace starting from
an unstamped clock, two invocation times are at least the cooldown apart,
so any window shorter than the cooldown contains at most one invocation. -/
theorem planning_cooldown_spec (c0 : PlanClock) (steps : List (ℚ × SituationGraph × Bool))
    (hlast : c0.last_planning_call = none) (hcd : 0 ≤ c0.planning_cooldown_seconds)
    (hmono : List.Chain' (· ≤ ·) (steps.map Prod.fst)) :
    (∀ (now : ℚ) (g : SituationGraph) (c : PlanClock) (af : Bool),
        ((maybe_generate_recommendations now g c af).2 = true ↔
          (cooldownOk now c = true ∧ criticalIncidentsExist g = true
            ∧ pendingCount g < 3 ∧ availableResourcesExist g = true))
        ∧ ((maybe_generate_recommendations now g c af).2 = true →
            (maybe_generate_recommendations now g c af).1.last_planning_call = some now)
        ∧ (∀ af' : Bool, maybe_generate_recommendations now g c af
            = maybe_generate_recommendations now g c af'))
    ∧ List.Pairwise (fun a b => a + c0.planning_cooldown_seconds ≤ b)
        (firedTimes c0 steps)
    ∧ (∀ t w : ℚ, w < c0.planning_cooldown_seconds →
        ((firedTimes c0 steps).filter
          (fun x => decide (t ≤ x) && decide (x < t + w))).length ≤ 1) := by
  have hrun := runPlanning_gap c0.planning_cooldown_seconds hcd steps c0 rfl hmono
    (by intro t0 h0; rw [hlast] at h0; cases h0)
  have hpw : List.Pairwise (fun a b => a + c0.planning_cooldown_seconds ≤ b)
      (firedTimes c0 steps) := by
    haveI : IsTrans ℚ (fun a b => a + c0.planning_cooldown_seconds ≤ b) :=
      ⟨fun a b c hab hbc => by
        have h1 : a + c0.planning_cooldown_seconds ≤ b := hab
        have h2 : b + c0.planning_cooldown_seconds ≤ c := hbc
        show a + c0.planning_cooldown_seconds ≤ c
        linarith⟩
    exact List.chain'_iff_pairwise.mp hrun.1
  refine ⟨?_, hpw, ?_⟩
  · intro now g c af
    exact ⟨maybe_fired_iff now g c af,
      fun hf => (maybe_stamp now g c af hf).1,
      fun af' => maybe_clock_analyzer_independent now g c af af'⟩
  · intro t w hw
    exact pairwise_gap_window c0.planning_cooldown_seconds (firedTimes c0 steps) hpw t w hw

/-- Witness for C4 at a concrete trace. -/
theorem planning_cooldown_spec_witness :
    List.Pairwise (fun a b => a + clock0.planning_cooldown_seconds ≤ b)
      (firedTimes clock0 stepsW) :=
  (planning_cooldown_spec clock0 stepsW rfl (by norm_num [clock0])
    (by norm_num [stepsW, List.chain'_cons])).2.1

/-- C8: evaluation of `_inject_contradiction` at the failing input.  The
event carries two claims and `force_verdict = "CONTRADICTION"`, but the
analyzer reports `CONSISTENT`; the code takes the analyzer's verdict —
`ver_data.get("verdict", force_verdict)` only falls back when the key is
absent — so the alert is created with verdict `consistent`, not the forced
`contradiction`.  The rest of the claim holds at this input: exactly one
alert, severity `high`, `entity_id = "main_street_bridge"`, entity added
to the handled set, claim list deleted. -/
theorem inject_contradiction_ignores_force_verdict :
    ((inject_contradiction co8 injectData8 (.ok verConsistent) "alert_1" 5 5).2.map
        (fun a => a.verdict) = some Verdict.consistent)
    ∧ ¬ ((inject_contradiction co8 injectData8 (.ok verConsistent) "alert_1" 5 5).2.map
        (fun a => a.verdict) = some Verdict.contradiction)
    ∧ ((inject_contradiction co8 injectData8 (.ok verConsistent) "alert_1" 5 5).2.map
        (fun a => a.severity) = some Severity.high)
    ∧ ((inject_contradiction co8 injectData8 (.ok verConsistent) "alert_1" 5 5).2.map
        (fun a => a.entity_id) = some "main_street_bridge")
    ∧ (inject_contradiction co8 injectData8 (.ok verConsistent) "alert_1" 5 5).1.handled
        = ["Main Street Bridge"]
    ∧ alookup "Main Street Bridge"
        (inject_contradiction co8 injectData8 (.ok verConsistent) "alert_1" 5 5).1.signal_claims
        = none
    ∧ ((alookup "alert_1" (inject_contradiction co8 injectData8 (.ok verConsistent)
          "alert_1" 5 5).1.mgr.graph.contradictions).map (fun a => a.verdict)
        = some Verdict.consistent) := by
  have h1 : (inject_contradiction co8 injectData8 (.ok verConsistent) "alert_1" 5 5).2.map
      (fun a => a.verdict) = some Verdict.consistent := rfl
  refine ⟨h1, ?_, rfl, rfl, rfl, rfl, rfl⟩
  rw [h1]
  simp

end Spec2Proof
